import Mathlib

/-!
Verification of the merge-request reference resolution and diff-normalization
pipeline of the word-paragraph-ML dashboard, together with its Telegram
notification gateway.

The definitions below are a shallow embedding of the repository's source:

* `parseMRUrl`, the URL resolver (regex matching is embedded as an explicit
  leftmost-match scan over character lists, mirroring the two JavaScript
  regular expressions character for character);
* `fetchGitHubPR`, `fetchGitLabMR`, `handleFetchDiff`, the platform adapters
  and the UI fetch driver (network responses become explicit response
  records; React state setters become explicit state passing);
* `escapeHtml`, `buildTelegramMessage`, `handleTelegram`, the Telegram
  edge function (environment secrets and the Telegram API reply become
  explicit parameters).

Theorems named `c1_*` .. `c10_*` settle the specification claims.
-/

/-! ## Generic helpers -/

/-- Drop a literal character sequence from the front of a list.
Returns the remainder when the list starts with the literal, else `none`.
This models matching a literal fragment of a regular expression. -/
def dropLit : List Char → List Char → Option (List Char)
  | [], cs => some cs
  | _ :: _, [] => none
  | l :: ls, c :: cs => if c = l then dropLit ls cs else none

/-- Match one nonempty run of non-`'/'` characters followed by a literal
`'/'`; returns the run and the remainder after the slash.  This models the
regex fragment `([^/]+)/` (greedy, and forced: the run cannot give back
characters because the following token only matches `'/'`). -/
def seg? (cs : List Char) : Option (List Char × List Char) :=
  let s := cs.takeWhile (fun c => !(c = '/'))
  let r := cs.dropWhile (fun c => !(c = '/'))
  if s = [] then none
  else
    match r with
    | '/' :: r2 => some (s, r2)
    | _ => none

/-- Match one maximal nonempty run of decimal digits at the front of the
list; models the regex fragment `(\d+)` at the end of a pattern. -/
def digits? (cs : List Char) : Option (List Char) :=
  let d := cs.takeWhile Char.isDigit
  if d = [] then none else some d

/-- Try a matcher at every start position, leftmost first; models an
unanchored JavaScript `String.match` search. -/
def firstMatch {α : Type} (f : List Char → Option α) : List Char → Option α
  | [] => f []
  | c :: cs =>
    match f (c :: cs) with
    | some r => some r
    | none => firstMatch f cs

/-! ## URL resolver (`parseMRUrl`) -/

inductive Platform where
  | github
  | gitlab
deriving DecidableEq, Repr

/-- The record returned by `parseMRUrl` on success:
`{ platform, owner, repo, mrNumber }`. -/
structure MRRef where
  platform : Platform
  owner : String
  repo : String
  mrNumber : String
deriving DecidableEq, Repr

/-- Attempt of the GitHub pattern (literal `github.com` then slash, a
segment capture, slash, a segment capture, slash, literal `pull`, slash,
a digit-run capture) at one start position. -/
def matchGHAt (cs : List Char) : Option MRRef :=
  match dropLit "github.com/".data cs with
  | none => none
  | some r0 =>
    match seg? r0 with
    | none => none
    | some (owner, r1) =>
      match seg? r1 with
      | none => none
      | some (repo, r2) =>
        match dropLit "pull/".data r2 with
        | none => none
        | some r3 =>
          match digits? r3 with
          | none => none
          | some num => some ⟨.github, String.mk owner, String.mk repo, String.mk num⟩

/-- Attempt of the GitLab pattern (literal `gitlab.com` then slash, a
segment capture, slash, a segment capture, then the literal path
`-`, `merge_requests` separated by slashes, then a digit-run capture)
at one start position. -/
def matchGLAt (cs : List Char) : Option MRRef :=
  match dropLit "gitlab.com/".data cs with
  | none => none
  | some r0 =>
    match seg? r0 with
    | none => none
    | some (owner, r1) =>
      match seg? r1 with
      | none => none
      | some (repo, r2) =>
        match dropLit "-/merge_requests/".data r2 with
        | none => none
        | some r3 =>
          match digits? r3 with
          | none => none
          | some num => some ⟨.gitlab, String.mk owner, String.mk repo, String.mk num⟩

/-- Embedding of `parseMRUrl`: try the GitHub pattern anywhere in the
string, then the GitLab pattern; `none` models the `null` return. -/
def parseMRUrl (url : String) : Option MRRef :=
  match firstMatch matchGHAt url.data with
  | some r => some r
  | none => firstMatch matchGLAt url.data

example : parseMRUrl "https://github.com/acme/widgets/pull/42"
    = some ⟨.github, "acme", "widgets", "42"⟩ := by decide

example : parseMRUrl "https://gitlab.com/acme/widgets/-/merge_requests/7"
    = some ⟨.gitlab, "acme", "widgets", "7"⟩ := by decide

example : parseMRUrl "https://bitbucket.org/x/y/pull/1" = none := by decide

example : parseMRUrl "https://github.com/acme/widgets/pull/42x"
    = some ⟨.github, "acme", "widgets", "42"⟩ := by decide

example : parseMRUrl "https://github.com/acme/widgets/pull/x" = none := by decide

/-! ## File-change model and platform adapters -/

/-- JavaScript truthiness of an optional string: `undefined` and the empty
string are falsy. -/
def truthyS : Option String → Bool
  | none => false
  | some s => !(s = "")

/-- JavaScript `a || b` on two optional strings. -/
def jsOr (a b : Option String) : Option String :=
  match a with
  | some s => if s = "" then b else some s
  | none => b

inductive FileStatus where
  | added
  | modified
  | removed
  | renamed
deriving DecidableEq, Repr

/-- The normalized `FileChange` record of the UI.  `filename` is optional
because the GitLab mapping `change.new_path || change.old_path` can be
`undefined` when both paths are absent. -/
structure FileChange where
  filename : Option String
  status : FileStatus
  additions : Nat
  deletions : Nat
  patch : Option String
deriving DecidableEq, Repr

/-- A character at which the JavaScript multiline anchor `^` considers the
next position a line start (LF, CR, LS, PS). -/
def isLineTerm (c : Char) : Bool :=
  c = '\n' || c = '\r' || c = '\u2028' || c = '\u2029'

/-- Count of the non-overlapping matches of the regex consisting of the
multiline anchor, the character `mark`, and a negated class excluding
`mark` (the GitLab adapter uses it with `'+'` and `'-'` over the diff
text).  `atStart` records whether the current position is a line start;
each match consumes two characters, as the JavaScript global-flag scan
does. -/
def countRe (mark : Char) : Bool → List Char → Nat
  | atStart, c1 :: c2 :: rest =>
    if atStart && c1 = mark && !(c2 = mark) then
      1 + countRe mark (isLineTerm c2) rest
    else
      countRe mark (isLineTerm c1) (c2 :: rest)
  | _, _ => 0

example : countRe '+' true "+foo\n++bar\n-baz\n--qux\n".data = 1 := by decide
example : countRe '-' true "+foo\n++bar\n-baz\n--qux\n".data = 1 := by decide
example : countRe '+' true "+".data = 0 := by decide
example : countRe '+' true "+\n".data = 1 := by decide

/-- One file entry of the GitHub `pulls/{n}/files` response, with the
fields the adapter reads. -/
structure GHFile where
  filename : String
  status : FileStatus
  additions : Nat
  deletions : Nat
  patch : Option String
deriving DecidableEq, Repr

/-- The pair of GitHub responses one fetch consumes: the `ok` flags of the
two HTTP responses and the decoded JSON bodies. -/
structure GHResp where
  prOk : Bool
  filesOk : Bool
  title : String
  userLogin : Option String
  files : List GHFile
deriving DecidableEq, Repr

/-- One entry of the GitLab `changes` array, with the fields the adapter
reads (all of them may be absent at runtime). -/
structure GLChange where
  newFile : Bool
  deletedFile : Bool
  renamedFile : Bool
  diff : Option String
  newPath : Option String
  oldPath : Option String
deriving DecidableEq, Repr

/-- The pair of GitLab responses one fetch consumes. -/
structure GLResp where
  mrOk : Bool
  changesOk : Bool
  title : String
  authorUsername : Option String
  changes : Option (List GLChange)
deriving DecidableEq, Repr

/-- The GitHub adapter's per-file mapping: fields are taken verbatim. -/
def mapGHFile (f : GHFile) : FileChange :=
  ⟨some f.filename, f.status, f.additions, f.deletions, f.patch⟩

/-- The GitLab adapter's per-change mapping: status from the three flags in
source order, line counts from the two regex scans over `change.diff`
(0 when the diff is absent), filename `new_path || old_path`. -/
def mapGLChange (c : GLChange) : FileChange :=
  let status : FileStatus :=
    if c.newFile then .added
    else if c.deletedFile then .removed
    else if c.renamedFile then .renamed
    else .modified
  let additions := match c.diff with
    | some d => countRe '+' true d.data
    | none => 0
  let deletions := match c.diff with
    | some d => countRe '-' true d.data
    | none => 0
  ⟨jsOr c.newPath c.oldPath, status, additions, deletions, c.diff⟩

/-- The component state `handleFetchDiff` reads and writes (the React
`useState` slots it touches). -/
structure UIState where
  isLoading : Bool
  filesChanged : List FileChange
  selectedFile : Option FileChange
  diffHtml : String
  mrTitle : String
  mrAuthor : String
deriving DecidableEq, Repr

/-- Embedding of `fetchGitHubPR`.  `render` stands for `generateDiffHtml`'s
diff2html rendering (patch, then filename); an `error` result models the
thrown `Failed to fetch GitHub PR details`. -/
def fetchGitHubPR (render : String → String → String) (st : UIState)
    (r : GHResp) : Except Unit UIState :=
  if !r.prOk || !r.filesOk then .error ()
  else
    let files := r.files.map mapGHFile
    let st1 := { st with
      mrTitle := r.title
      mrAuthor := r.userLogin.getD "Unknown"
      filesChanged := files }
    match files with
    | [] => .ok st1
    | f :: _ =>
      match f.patch with
      | some p =>
        if !(p = "") then
          .ok { st1 with selectedFile := some f, diffHtml := render p (f.filename.getD "") }
        else .ok st1
      | none => .ok st1

/-- Embedding of `fetchGitLabMR`, symmetric to the GitHub adapter; the
`changes` array defaults to `[]` when absent. -/
def fetchGitLabMR (render : String → String → String) (st : UIState)
    (r : GLResp) : Except Unit UIState :=
  if !r.mrOk || !r.changesOk then .error ()
  else
    let files := (r.changes.getD []).map mapGLChange
    let st1 := { st with
      mrTitle := r.title
      mrAuthor := r.authorUsername.getD "Unknown"
      filesChanged := files }
    match files with
    | [] => .ok st1
    | f :: _ =>
      match f.patch with
      | some p =>
        if !(p = "") then
          .ok { st1 with selectedFile := some f, diffHtml := render p (f.filename.getD "") }
        else .ok st1
      | none => .ok st1

/-- Embedding of `handleFetchDiff`.  The two response records stand for
whatever the platform replies with; the one matching the parsed platform
is consumed.  Early returns (empty URL, unrecognized URL) leave the state
unchanged; otherwise the file list, selection and rendered diff are reset,
the adapter runs, and a failure leaves that reset state in place. -/
def handleFetchDiff (render : String → String → String)
    (gh : GHResp) (gl : GLResp) (st : UIState) (mrUrl : String) : UIState :=
  if mrUrl = "" then st
  else
    match parseMRUrl mrUrl with
    | none => st
    | some parsed =>
      let st1 := { st with
        isLoading := true
        filesChanged := []
        selectedFile := none
        diffHtml := "" }
      let res :=
        match parsed.platform with
        | .github => fetchGitHubPR render st1 gh
        | .gitlab => fetchGitLabMR render st1 gl
      match res with
      | .ok st2 => { st2 with isLoading := false }
      | .error _ => { st1 with isLoading := false }

/-! ## Telegram notification gateway -/

/-- One review issue of the notification payload. -/
structure ReviewIssue where
  id : String
  file : String
  line : Nat
  severity : String
  message : String
  rule : String
  suggestion : Option String
deriving DecidableEq, Repr

/-- The notification payload.  `status` and `severity` are kept as strings
because the function consumes decoded JSON and both emoji helpers carry a
default branch for unexpected values. -/
structure TelegramNotificationRequest where
  mrTitle : String
  mrUrl : String
  author : String
  filesChanged : Nat
  linesAdded : Nat
  linesRemoved : Nat
  reviewTime : String
  status : String
  issues : List ReviewIssue
  summary : String
deriving DecidableEq, Repr

/-- Embedding of `getStatusEmoji`. -/
def getStatusEmoji (status : String) : String :=
  if status = "passed" then "✅"
  else if status = "warnings" then "⚠️"
  else if status = "failed" then "❌"
  else "📋"

/-- Embedding of `getSeverityEmoji`. -/
def getSeverityEmoji (severity : String) : String :=
  if severity = "error" then "🔴"
  else if severity = "warning" then "🟡"
  else if severity = "info" then "🔵"
  else "⚪"

/-- One global single-character replacement, as one JavaScript
`String.replace` with a global single-character pattern. -/
def replCh (c : Char) (rep : List Char) : List Char → List Char
  | [] => []
  | x :: xs => (if x = c then rep else [x]) ++ replCh c rep xs

/-- Embedding of `escapeHtml`: the four sequential global replacements of
the source, in source order. -/
def escapeHtml (text : String) : String :=
  String.mk
    (replCh '"' "&quot;".data
      (replCh '>' "&gt;".data
        (replCh '<' "&lt;".data
          (replCh '&' "&amp;".data text.data))))

example : escapeHtml "a<b & c>\"d\"" = "a&lt;b &amp; c&gt;&quot;d&quot;" := by decide

/-- Decimal rendering of a natural number, as JavaScript template
interpolation renders the (integral) numbers of the payload.  Structural
fuel keeps the definition kernel-reducible. -/
def natDigitsAux : Nat → Nat → List Char
  | 0, _ => []
  | fuel + 1, n =>
    if n < 10 then [Nat.digitChar n]
    else natDigitsAux fuel (n / 10) ++ [Nat.digitChar (n % 10)]

/-- Decimal rendering of a natural number as a string. -/
def natStr (n : Nat) : String := String.mk (natDigitsAux (n + 1) n)

example : natStr 0 = "0" := by decide
example : natStr 125 = "125" := by decide

/-- Embedding of `charAt(0).toUpperCase() + slice(1)` on the status text. -/
def capFirst (s : String) : String :=
  match s.data with
  | [] => ""
  | c :: rest => String.mk (c.toUpper :: rest)

/-- The per-issue truncation of the builder: messages longer than 80
characters are cut to their first 80 characters plus an ellipsis. -/
def shortMessageOf (m : String) : String :=
  if m.length > 80 then String.mk (m.data.take 80) ++ "..." else m

/-- The two message lines the builder emits for one listed issue
(`index` is the zero-based position in the truncated list). -/
def issueBlock (index : Nat) (issue : ReviewIssue) : String :=
  natStr (index + 1) ++ ". " ++ getSeverityEmoji issue.severity ++ " <code>"
    ++ escapeHtml issue.file ++ ":" ++ natStr issue.line ++ "</code>\n"
    ++ ("   " ++ escapeHtml (shortMessageOf issue.message) ++ "\n")

/-- The `forEach` loop of the builder over the truncated issue list. -/
def issueBlocks (index : Nat) : List ReviewIssue → String
  | [] => ""
  | i :: rest => issueBlock index i ++ issueBlocks (index + 1) rest

/-- Embedding of `buildTelegramMessage`, following the source's
append-by-append construction. -/
def buildTelegramMessage (data : TelegramNotificationRequest) : String :=
  let statusEmoji := getStatusEmoji data.status
  let statusText := capFirst data.status
  let errorCount := (data.issues.filter (fun i => i.severity = "error")).length
  let warningCount := (data.issues.filter (fun i => i.severity = "warning")).length
  let infoCount := (data.issues.filter (fun i => i.severity = "info")).length
  let message := statusEmoji ++ " <b>Code Review Complete</b>\n\n"
  let message := message ++ "📝 <b>MR:</b> " ++ escapeHtml data.mrTitle ++ "\n"
  let message := message ++ "👤 <b>Author:</b> " ++ escapeHtml data.author ++ "\n"
  let message := message ++ "📊 <b>Status:</b> " ++ statusText ++ "\n\n"
  let message := message ++ "📁 <b>Stats:</b>\n"
  let message := message ++ "• Files Changed: " ++ natStr data.filesChanged ++ "\n"
  let message := message ++ "• Lines Added: +" ++ natStr data.linesAdded ++ "\n"
  let message := message ++ "• Lines Removed: -" ++ natStr data.linesRemoved ++ "\n"
  let message := message ++ "• Review Time: " ++ escapeHtml data.reviewTime ++ "\n\n"
  let message :=
    if data.issues.length > 0 then
      let message := message ++ "🔍 <b>Issues Found:</b>\n"
      let message := message ++ "• 🔴 Errors: " ++ natStr errorCount ++ "\n"
      let message := message ++ "• 🟡 Warnings: " ++ natStr warningCount ++ "\n"
      let message := message ++ "• 🔵 Info: " ++ natStr infoCount ++ "\n\n"
      let message := message ++ "📋 <b>Top Issues:</b>\n"
      let message := message ++ issueBlocks 0 (data.issues.take 5)
      if data.issues.length > 5 then
        message ++ ("\n<i>... and "
          ++ natStr (data.issues.length - 5) ++ " more issues</i>\n")
      else message
    else message
  let message := message ++ "\n💡 <b>Summary:</b>\n" ++ escapeHtml data.summary ++ "\n\n"
  message ++ "🔗 <a href=\"" ++ escapeHtml data.mrUrl ++ "\">View Merge Request</a>"

/-- The decoded reply of the Telegram `sendMessage` call: the HTTP `ok`
flag and the JSON fields the handler reads. -/
structure TgApiResult where
  ok : Bool
  errorCode : Option Nat
  description : Option String
  messageId : Option Nat
deriving DecidableEq, Repr

/-- The response the edge function returns: a configuration error
(HTTP 500, with the `error` and `instructions` fields), a caught failure
(HTTP 500, with the `error` message), or success (HTTP 200). -/
inductive ServeResp where
  | configErr (error : String) (instructions : String)
  | failure (error : String)
  | success (messageId : Option Nat)
deriving DecidableEq, Repr

/-- Naive substring test used to model `String.includes`. -/
def startsWithL (pat cs : List Char) : Bool :=
  match pat, cs with
  | [], _ => true
  | _ :: _, [] => false
  | p :: ps, c :: cs' => p = c && startsWithL ps cs'

/-- Whether `pat` occurs somewhere in `cs` (JavaScript `includes`). -/
def containsSubL (cs pat : List Char) : Bool :=
  match cs with
  | [] => startsWithL pat []
  | _ :: cs' => startsWithL pat cs || containsSubL cs' pat

/-- The template rendering of `result.error_code` (possibly `undefined`). -/
def errCodeStr : Option Nat → String
  | none => "undefined"
  | some n => natStr n

/-- JavaScript `result.description || result.error_code || "Unknown error"`
as it ends up rendered in the generic error template. -/
def errMsgOf (r : TgApiResult) : String :=
  match r.description with
  | some d => if !(d = "") then d else
      match r.errorCode with
      | some n => if !(n = 0) then natStr n else "Unknown error"
      | none => "Unknown error"
  | none =>
      match r.errorCode with
      | some n => if !(n = 0) then natStr n else "Unknown error"
      | none => "Unknown error"

/-- Embedding of the serve handler of the Telegram edge function.  The two
environment secrets and the Telegram API reply are parameters; the thrown
errors surface as the catch-all 500 response carrying the thrown message. -/
def handleTelegram (botToken chatId : Option String)
    (_data : TelegramNotificationRequest) (api : TgApiResult) : ServeResp :=
  if !truthyS botToken then
    .configErr "TELEGRAM_BOT_TOKEN is not configured in Supabase secrets"
      "Set it using: supabase secrets set TELEGRAM_BOT_TOKEN=your_bot_token"
  else if !truthyS chatId then
    .configErr "TELEGRAM_CHAT_ID is not configured in Supabase secrets"
      "Set it using: supabase secrets set TELEGRAM_CHAT_ID=your_chat_id"
  else if !api.ok then
    if api.errorCode = some 400
        && (match api.description with
            | some d => containsSubL d.data "chat not found".data
            | none => false) then
      .failure ("Invalid TELEGRAM_CHAT_ID. The bot cannot access chat: "
        ++ chatId.getD "" ++ ". Make sure to start the bot first by sending /start")
    else if api.errorCode = some 401 then
      .failure "Invalid TELEGRAM_BOT_TOKEN. Please check your bot token."
    else
      .failure ("Telegram API error (" ++ errCodeStr api.errorCode ++ "): " ++ errMsgOf api)
  else .success api.messageId

/-! ## Claim-side notions

These definitions follow the specification's words, to be compared with
the embedded source functions. -/

/-- A path segment as the URL patterns capture it: nonempty, slash-free. -/
def SegStr (s : List Char) : Prop := s ≠ [] ∧ ∀ c ∈ s, c ≠ '/'

instance (s : List Char) : Decidable (SegStr s) := by
  unfold SegStr; infer_instance

/-- The string contains the recognized GitHub shape: somewhere in it,
`github.com/` followed by an owner segment, a repo segment, `pull/` and a
nonempty digit run. -/
def HasGithubShape (url : List Char) : Prop :=
  ∃ pre owner repo num suf : List Char,
    url = pre ++ "github.com/".data ++ owner ++ '/' :: repo
            ++ "/pull/".data ++ num ++ suf
    ∧ SegStr owner ∧ SegStr repo ∧ num ≠ [] ∧ ∀ c ∈ num, c.isDigit = true

/-- The string contains the recognized GitLab merge-request shape. -/
def HasGitlabShape (url : List Char) : Prop :=
  ∃ pre owner repo num suf : List Char,
    url = pre ++ "gitlab.com/".data ++ owner ++ '/' :: repo
            ++ "/-/merge_requests/".data ++ num ++ suf
    ∧ SegStr owner ∧ SegStr repo ∧ num ≠ [] ∧ ∀ c ∈ num, c.isDigit = true

/-- Split a character list into its lines at the newline character, the
way the specification counts "lines" of the raw diff text. -/
def linesOf : List Char → List (List Char)
  | [] => [[]]
  | c :: rest =>
    if c = '\n' then [] :: linesOf rest
    else
      match linesOf rest with
      | l :: ls => (c :: l) :: ls
      | [] => [[c]]

example : linesOf "+foo\n++bar\n".data
    = ["+foo".data, "++bar".data, []] := by decide

/-- A line beginning with a single `mark` (the mark alone, or the mark
followed by a different character): the specification's counting rule. -/
def single1 (mark : Char) : List Char → Bool
  | [m] => m = mark
  | m :: c :: _ => m = mark && !(c = mark)
  | [] => false

/-- A line whose first character is `mark` and whose second character
exists and differs from `mark`: what the regex scan actually requires. -/
def strict1 (mark : Char) : List Char → Bool
  | m :: c :: _ => m = mark && !(c = mark)
  | _ => false

/-- The number of single-`mark` lines of a diff text, reading the text as
the specification does. -/
def claimMarkCount (mark : Char) (s : String) : Nat :=
  ((linesOf s.data).filter (single1 mark)).length

/-- The last line of a split text (total, defaulting to the empty line). -/
def lastD : List (List Char) → List Char
  | [] => []
  | [l] => l
  | _ :: ls => lastD ls

/-- The auto-selection rule the code implements: the head of the file
list, and only if its patch is truthy. -/
def headSel : List FileChange → Option FileChange
  | [] => none
  | f :: _ => if truthyS f.patch then some f else none

/-- The first file with a truthy (present and nonempty) patch: the
selection rule the specification describes. -/
def firstWithPatch (files : List FileChange) : Option FileChange :=
  files.find? (fun f => truthyS f.patch)

/-- Every occurrence of `'&'` in the list begins one of the four entities
`&amp;` `&lt;` `&gt;` `&quot;`. -/
def entityOkL : List Char → Bool
  | [] => true
  | c :: rest =>
    (if c = '&' then
      startsWithL "amp;".data rest || startsWithL "lt;".data rest
        || startsWithL "gt;".data rest || startsWithL "quot;".data rest
    else true) && entityOkL rest

/-- Every occurrence of `'<'` in the list begins one of the tags the
Telegram message template itself writes. -/
def tagsOkL : List Char → Bool
  | [] => true
  | c :: rest =>
    (if c = '<' then
      startsWithL "b>".data rest || startsWithL "/b>".data rest
        || startsWithL "i>".data rest || startsWithL "/i>".data rest
        || startsWithL "code>".data rest || startsWithL "/code>".data rest
        || startsWithL "a href=\"".data rest || startsWithL "/a>".data rest
    else true) && tagsOkL rest

/-- Per-position variant of the regex count: one position is examined per
step (no two-character consumption).  Used as a bridge between `countRe`
and the line-based reading. -/
def posCount (mark : Char) : Bool → List Char → Nat
  | atStart, c1 :: c2 :: rest =>
    (if atStart && c1 = mark && !(c2 = mark) then 1 else 0)
      + posCount mark (isLineTerm c1) (c2 :: rest)
  | _, _ => 0

/-- Line-based reading of the regex count: every line but the last is
counted by `single1` (its terminating newline supplies the second matched
character), the last line by `strict1` (no character follows it). -/
def countML (mark : Char) : List (List Char) → Nat
  | [] => 0
  | [l] => if strict1 mark l then 1 else 0
  | l :: ls => (if single1 mark l then 1 else 0) + countML mark ls

/-- As `countML`, but the first line (the remainder of an already started
line) is never counted. -/
def countMLtail (mark : Char) : List (List Char) → Nat
  | [] => 0
  | _ :: ls => countML mark ls

/-- The single-pass reading of `escapeHtml` for one character. -/
def escBlock (c : Char) : List Char :=
  if c = '&' then "&amp;".data
  else if c = '<' then "&lt;".data
  else if c = '>' then "&gt;".data
  else if c = '"' then "&quot;".data
  else [c]

/-- The single-pass reading of `escapeHtml` over a list. -/
def escL : List Char → List Char
  | [] => []
  | c :: cs => escBlock c ++ escL cs

/-! ## Claim C4: GitLab status classification -/

/-- C4 counterexample: on the inconsistent flag combination new+renamed the
adapter classifies the file as `added`, not as the claimed safe default
`modified`. -/
theorem c4_counterexample :
    (mapGLChange ⟨true, false, true, some "", none, none⟩).status ≠ FileStatus.modified
    ∧ (mapGLChange ⟨true, false, true, some "", none, none⟩).status = FileStatus.added := by
  decide

/-- C4 (amended): the GitLab adapter classifies a change as `added` when
the new-file flag is set (regardless of the other flags), as `removed` when
only the deleted-file flag is set, as `renamed` when only the renamed-file
flag is set, and as `modified` when no flag is set; inconsistent flag
combinations resolve by this priority order, never by failing. -/
theorem c4_amended (c : GLChange) :
    (c.newFile = true → (mapGLChange c).status = .added)
    ∧ (c.newFile = false → c.deletedFile = true → (mapGLChange c).status = .removed)
    ∧ (c.newFile = false → c.deletedFile = false → c.renamedFile = true →
        (mapGLChange c).status = .renamed)
    ∧ (c.newFile = false → c.deletedFile = false → c.renamedFile = false →
        (mapGLChange c).status = .modified) := by
  refine ⟨?_, ?_, ?_, ?_⟩ <;> intros <;> simp [mapGLChange, *]

/-- C4 witness: the amended theorem evaluated on a new file and on a plain
modification. -/
theorem c4_amended_witness :
    (mapGLChange ⟨true, false, false, some "", none, none⟩).status = .added
    ∧ (mapGLChange ⟨false, false, false, some "", none, none⟩).status = .modified :=
  ⟨(c4_amended ⟨true, false, false, some "", none, none⟩).1 rfl,
   (c4_amended ⟨false, false, false, some "", none, none⟩).2.2.2 rfl rfl rfl⟩

/-! ## Claim C10: absent GitLab fields degrade gracefully -/

/-- C10: a GitLab changes response without a `changes` array yields a
successful fetch with an empty file list (selection untouched, hence empty
in the cleared fetch state), and a change without a diff yields zero
additions and deletions and an absent patch. -/
theorem c10_absent_fields (render : String → String → String) (st : UIState)
    (gh : GHResp) (gl : GLResp) (c : GLChange) :
    (gl.mrOk = true → gl.changesOk = true → gl.changes = none →
      fetchGitLabMR render st gl
        = .ok { st with
            mrTitle := gl.title
            mrAuthor := gl.authorUsername.getD "Unknown"
            filesChanged := [] })
    ∧ (c.diff = none →
        (mapGLChange c).additions = 0 ∧ (mapGLChange c).deletions = 0
          ∧ (mapGLChange c).patch = none)
    ∧ (∀ url parsed, parseMRUrl url = some parsed → parsed.platform = .gitlab →
        gl.mrOk = true → gl.changesOk = true → gl.changes = none →
        (handleFetchDiff render gh gl st url).filesChanged = []
          ∧ (handleFetchDiff render gh gl st url).selectedFile = none) := by
  refine ⟨?_, ?_, ?_⟩
  · intro h1 h2 h3
    simp [fetchGitLabMR, h1, h2, h3]
  · intro h
    simp [mapGLChange, h]
  · intro url parsed hp hplat h1 h2 h3
    have hurl : url ≠ "" := by
      intro he
      rw [he] at hp
      rw [show parseMRUrl "" = none from by decide] at hp
      exact Option.noConfusion hp
    unfold handleFetchDiff
    rw [if_neg hurl, hp]
    simp only [hplat]
    simp [fetchGitLabMR, h1, h2, h3]

/-- C10 witness: the theorem evaluated on a response without `changes` and
a change without a diff. -/
theorem c10_absent_fields_witness :
    fetchGitLabMR (fun _ _ => "") ⟨false, [], none, "", "", ""⟩
        ⟨true, true, "T", some "ann", none⟩
      = .ok ⟨false, [], none, "", "T", "ann"⟩
    ∧ (mapGLChange ⟨false, false, false, none, some "f", none⟩).additions = 0 :=
  ⟨(c10_absent_fields (fun _ _ => "") ⟨false, [], none, "", "", ""⟩
      ⟨true, true, "", none, []⟩ ⟨true, true, "T", some "ann", none⟩
      ⟨false, false, false, none, some "f", none⟩).1 rfl rfl rfl,
   ((c10_absent_fields (fun _ _ => "") ⟨false, [], none, "", "", ""⟩
      ⟨true, true, "", none, []⟩ ⟨true, true, "T", some "ann", none⟩
      ⟨false, false, false, none, some "f", none⟩).2.1 rfl).1⟩

/-! ## Claim C7: notification gateway error taxonomy -/

/-- C7: a missing or empty bot token is reported as a configuration error
naming `TELEGRAM_BOT_TOKEN`; a missing chat id likewise names
`TELEGRAM_CHAT_ID`; a Telegram reply with error code 400 whose description
contains "chat not found" produces the unreachable-recipient diagnostic
naming the configured chat id, and error code 401 produces the
invalid-credentials diagnostic; the three messages are specific, not the
generic `Telegram API error` template. -/
theorem c7_gateway_errors (bt cid : Option String)
    (d : TelegramNotificationRequest) (api : TgApiResult) :
    (truthyS bt = false →
      handleTelegram bt cid d api
        = .configErr "TELEGRAM_BOT_TOKEN is not configured in Supabase secrets"
            "Set it using: supabase secrets set TELEGRAM_BOT_TOKEN=your_bot_token")
    ∧ (truthyS bt = true → truthyS cid = false →
      handleTelegram bt cid d api
        = .configErr "TELEGRAM_CHAT_ID is not configured in Supabase secrets"
            "Set it using: supabase secrets set TELEGRAM_CHAT_ID=your_chat_id")
    ∧ (truthyS bt = true → truthyS cid = true → api.ok = false →
        api.errorCode = some 400 →
        (∃ desc, api.description = some desc
          ∧ containsSubL desc.data "chat not found".data = true) →
        handleTelegram bt cid d api
          = .failure ("Invalid TELEGRAM_CHAT_ID. The bot cannot access chat: "
              ++ cid.getD ""
              ++ ". Make sure to start the bot first by sending /start"))
    ∧ (truthyS bt = true → truthyS cid = true → api.ok = false →
        api.errorCode = some 401 →
        handleTelegram bt cid d api
          = .failure "Invalid TELEGRAM_BOT_TOKEN. Please check your bot token.") := by
  refine ⟨?_, ?_, ?_, ?_⟩
  · intro h1
    simp [handleTelegram, h1]
  · intro h1 h2
    simp [handleTelegram, h1, h2]
  · intro h1 h2 h3 h4 h5
    obtain ⟨desc, hd, hc⟩ := h5
    simp [handleTelegram, h1, h2, h3, h4, hd, hc]
  · intro h1 h2 h3 h4
    simp [handleTelegram, h1, h2, h3, h4]

/-- C7 witness: the four branches of the theorem evaluated on concrete
environments and Telegram replies. -/
theorem c7_gateway_errors_witness :
    handleTelegram none (some "c") ⟨"", "", "", 0, 0, 0, "", "", [], ""⟩
        ⟨true, none, none, none⟩
      = .configErr "TELEGRAM_BOT_TOKEN is not configured in Supabase secrets"
          "Set it using: supabase secrets set TELEGRAM_BOT_TOKEN=your_bot_token"
    ∧ handleTelegram (some "t") (some "") ⟨"", "", "", 0, 0, 0, "", "", [], ""⟩
        ⟨true, none, none, none⟩
      = .configErr "TELEGRAM_CHAT_ID is not configured in Supabase secrets"
          "Set it using: supabase secrets set TELEGRAM_CHAT_ID=your_chat_id"
    ∧ handleTelegram (some "t") (some "99") ⟨"", "", "", 0, 0, 0, "", "", [], ""⟩
        ⟨false, some 400, some "Bad Request: chat not found", none⟩
      = .failure ("Invalid TELEGRAM_CHAT_ID. The bot cannot access chat: 99. Make sure to start the bot first by sending /start")
    ∧ handleTelegram (some "t") (some "99") ⟨"", "", "", 0, 0, 0, "", "", [], ""⟩
        ⟨false, some 401, some "Unauthorized", none⟩
      = .failure "Invalid TELEGRAM_BOT_TOKEN. Please check your bot token." := by
  refine ⟨?_, ?_, ?_, ?_⟩
  · exact (c7_gateway_errors none (some "c") ⟨"", "", "", 0, 0, 0, "", "", [], ""⟩
      ⟨true, none, none, none⟩).1 rfl
  · exact (c7_gateway_errors (some "t") (some "") ⟨"", "", "", 0, 0, 0, "", "", [], ""⟩
      ⟨true, none, none, none⟩).2.1 rfl rfl
  · exact (c7_gateway_errors (some "t") (some "99") ⟨"", "", "", 0, 0, 0, "", "", [], ""⟩
      ⟨false, some 400, some "Bad Request: chat not found", none⟩).2.2.1 rfl rfl rfl rfl
      ⟨"Bad Request: chat not found", rfl, by decide⟩
  · exact (c7_gateway_errors (some "t") (some "99") ⟨"", "", "", 0, 0, 0, "", "", [], ""⟩
      ⟨false, some 401, some "Unauthorized", none⟩).2.2.2 rfl rfl rfl rfl

/-! ## Claim C3: auto-selection of the initially selected file -/

/-- C3 counterexample: with a first file whose patch is absent and a second
file with a nonempty patch, the fetch succeeds with no selected file,
although a first entry with a non-empty patch exists. -/
theorem c3_counterexample :
    fetchGitHubPR (fun _ _ => "") ⟨false, [], none, "", "", ""⟩
        ⟨true, true, "T", some "u",
          [⟨"a", .modified, 0, 0, none⟩, ⟨"b", .modified, 1, 0, some "+x"⟩]⟩
      = .ok ⟨false,
          [⟨some "a", .modified, 0, 0, none⟩, ⟨some "b", .modified, 1, 0, some "+x"⟩],
          none, "", "T", "u"⟩
    ∧ firstWithPatch
        ([⟨"a", .modified, 0, 0, none⟩, ⟨"b", .modified, 1, 0, some "+x"⟩].map mapGHFile)
      = some ⟨some "b", .modified, 1, 0, some "+x"⟩ := by
  refine ⟨by rfl, by decide⟩

/-- C3 (amended): on a successful fetch the auto-selected file is the head
of the file list when that head's patch is present and nonempty, and no
file is selected otherwise — in particular none when the list is empty or
all patches are empty, but also none when only a later entry has a patch. -/
theorem c3_amended (render : String → String → String) (st : UIState)
    (hsel : st.selectedFile = none) (gh : GHResp) (gl : GLResp) :
    (∀ st', fetchGitHubPR render st gh = .ok st' →
      st'.selectedFile = headSel (gh.files.map mapGHFile))
    ∧ (∀ st', fetchGitLabMR render st gl = .ok st' →
      st'.selectedFile = headSel ((gl.changes.getD []).map mapGLChange)) := by
  constructor
  · intro st' h
    unfold fetchGitHubPR at h
    split at h
    · exact Except.noConfusion h
    · dsimp only at h
      split at h
      · injection h with h
        subst h
        simp_all [headSel, truthyS]
      · split at h
        · split at h
          · injection h with h
            subst h
            simp_all [headSel, truthyS]
          · injection h with h
            subst h
            simp_all [headSel, truthyS]
        · injection h with h
          subst h
          simp_all [headSel, truthyS]
  · intro st' h
    unfold fetchGitLabMR at h
    split at h
    · exact Except.noConfusion h
    · dsimp only at h
      split at h
      · injection h with h
        subst h
        simp_all [headSel, truthyS]
      · split at h
        · split at h
          · injection h with h
            subst h
            simp_all [headSel, truthyS]
          · injection h with h
            subst h
            simp_all [headSel, truthyS]
        · injection h with h
          subst h
          simp_all [headSel, truthyS]

/-- C3 witness: the amended head-selection rule evaluated on a one-file
response with a nonempty patch. -/
theorem c3_amended_witness :
    (⟨false, [⟨some "f", .added, 1, 0, some "+z"⟩],
        some ⟨some "f", .added, 1, 0, some "+z"⟩, "", "T", "u"⟩ : UIState).selectedFile
      = headSel ([(⟨"f", .added, 1, 0, some "+z"⟩ : GHFile)].map mapGHFile) :=
  (c3_amended (fun _ _ => "") ⟨false, [], none, "", "", ""⟩ rfl
      ⟨true, true, "T", some "u", [⟨"f", .added, 1, 0, some "+z"⟩]⟩
      ⟨true, true, "", none, some []⟩).1
    ⟨false, [⟨some "f", .added, 1, 0, some "+z"⟩],
        some ⟨some "f", .added, 1, 0, some "+z"⟩, "", "T", "u"⟩
    (by rfl)

/-! ## Claim C2: state replacement across a fetch -/

/-- A successful GitHub fetch leaves the loading flag as given and writes
title, author and the mapped file list. -/
theorem fetchGH_ok_pieces (render : String → String → String) (st : UIState)
    (gh : GHResp) (st' : UIState) (h : fetchGitHubPR render st gh = .ok st') :
    st'.isLoading = st.isLoading ∧ st'.mrTitle = gh.title
      ∧ st'.mrAuthor = gh.userLogin.getD "Unknown"
      ∧ st'.filesChanged = gh.files.map mapGHFile := by
  unfold fetchGitHubPR at h
  split at h
  · exact Except.noConfusion h
  · dsimp only at h
    split at h
    · injection h with h
      subst h
      simp_all
    · split at h
      · split at h
        · injection h with h
          subst h
          simp_all
        · injection h with h
          subst h
          simp_all
      · injection h with h
        subst h
        simp_all

/-- A successful GitLab fetch leaves the loading flag as given and writes
title, author and the mapped change list. -/
theorem fetchGL_ok_pieces (render : String → String → String) (st : UIState)
    (gl : GLResp) (st' : UIState) (h : fetchGitLabMR render st gl = .ok st') :
    st'.isLoading = st.isLoading ∧ st'.mrTitle = gl.title
      ∧ st'.mrAuthor = gl.authorUsername.getD "Unknown"
      ∧ st'.filesChanged = (gl.changes.getD []).map mapGLChange := by
  unfold fetchGitLabMR at h
  split at h
  · exact Except.noConfusion h
  · dsimp only at h
    split at h
    · injection h with h
      subst h
      simp_all
    · split at h
      · split at h
        · injection h with h
          subst h
          simp_all
        · injection h with h
          subst h
          simp_all
      · injection h with h
        subst h
        simp_all

/-- A failing GitHub fetch is exactly the thrown error. -/
theorem fetchGH_fail (render : String → String → String) (st : UIState)
    (gh : GHResp) (h : (gh.prOk && gh.filesOk) = false) :
    fetchGitHubPR render st gh = .error () := by
  cases h1 : gh.prOk <;> cases h2 : gh.filesOk <;> simp_all [fetchGitHubPR]

/-- A failing GitLab fetch is exactly the thrown error. -/
theorem fetchGL_fail (render : String → String → String) (st : UIState)
    (gl : GLResp) (h : (gl.mrOk && gl.changesOk) = false) :
    fetchGitLabMR render st gl = .error () := by
  cases h1 : gl.mrOk <;> cases h2 : gl.changesOk <;> simp_all [fetchGitLabMR]

/-- A GitHub fetch only fails when one of the two responses is not ok. -/
theorem fetchGH_error (render : String → String → String) (st : UIState)
    (gh : GHResp) (e : Unit) (h : fetchGitHubPR render st gh = .error e) :
    (gh.prOk && gh.filesOk) = false := by
  unfold fetchGitHubPR at h
  split at h
  · cases hpr : gh.prOk <;> cases hf : gh.filesOk <;> simp_all
  · dsimp only at h
    split at h
    · exact Except.noConfusion h
    · split at h
      · split at h
        · exact Except.noConfusion h
        · exact Except.noConfusion h
      · exact Except.noConfusion h

/-- A GitLab fetch only fails when one of the two responses is not ok. -/
theorem fetchGL_error (render : String → String → String) (st : UIState)
    (gl : GLResp) (e : Unit) (h : fetchGitLabMR render st gl = .error e) :
    (gl.mrOk && gl.changesOk) = false := by
  unfold fetchGitLabMR at h
  split at h
  · cases hpr : gl.mrOk <;> cases hf : gl.changesOk <;> simp_all
  · dsimp only at h
    split at h
    · exact Except.noConfusion h
    · split at h
      · split at h
        · exact Except.noConfusion h
        · exact Except.noConfusion h
      · exact Except.noConfusion h

/-- A recognized URL is nonempty. -/
theorem parse_ne_empty (url : String) (parsed : MRRef)
    (h : parseMRUrl url = some parsed) : url ≠ "" := by
  intro he
  rw [he, show parseMRUrl "" = none from by decide] at h
  exact Option.noConfusion h

/-- Unfolding of `handleFetchDiff` on a recognized URL. -/
theorem handleFetchDiff_unfold (render : String → String → String)
    (gh : GHResp) (gl : GLResp) (st : UIState) (url : String) (parsed : MRRef)
    (h : parseMRUrl url = some parsed) :
    handleFetchDiff render gh gl st url =
      (match (match parsed.platform with
              | .github => fetchGitHubPR render
                  { st with
                    isLoading := true
                    filesChanged := []
                    selectedFile := none
                    diffHtml := "" } gh
              | .gitlab => fetchGitLabMR render
                  { st with
                    isLoading := true
                    filesChanged := []
                    selectedFile := none
                    diffHtml := "" } gl) with
       | .ok st2 => { st2 with isLoading := false }
       | .error _ =>
          { st with
            isLoading := false
            filesChanged := []
            selectedFile := none
            diffHtml := "" }) := by
  unfold handleFetchDiff
  rw [if_neg (parse_ne_empty url parsed h), h]

/-- C2 counterexample: a failing fetch does not leave the prior summary in
place — the file list, selection and rendered diff are cleared while title
and author keep their prior values, a partial overwrite of the previously
displayed state. -/
theorem c2_counterexample :
    handleFetchDiff (fun _ _ => "") ⟨false, true, "New", some "u", []⟩
        ⟨true, true, "", none, none⟩
        ⟨false, [⟨some "a.txt", .modified, 1, 1, some "+a"⟩],
          some ⟨some "a.txt", .modified, 1, 1, some "+a"⟩,
          "oldHtml", "Old title", "Old author"⟩
        "https://github.com/a/b/pull/1"
      ≠ ⟨false, [⟨some "a.txt", .modified, 1, 1, some "+a"⟩],
          some ⟨some "a.txt", .modified, 1, 1, some "+a"⟩,
          "oldHtml", "Old title", "Old author"⟩
    ∧ (handleFetchDiff (fun _ _ => "") ⟨false, true, "New", some "u", []⟩
        ⟨true, true, "", none, none⟩
        ⟨false, [⟨some "a.txt", .modified, 1, 1, some "+a"⟩],
          some ⟨some "a.txt", .modified, 1, 1, some "+a"⟩,
          "oldHtml", "Old title", "Old author"⟩
        "https://github.com/a/b/pull/1")
      = ⟨false, [], none, "", "Old title", "Old author"⟩ := by
  refine ⟨by decide, by decide⟩

/-- C2 (amended): `handleFetchDiff` resets the file list, selection and
rendered diff before fetching; when either platform request fails the
state stays exactly that cleared state (title and author keep their prior
values, nothing of the new summary appears), and only when both requests
succeed are title, author and file list replaced by the new summary. -/
theorem c2_amended (render : String → String → String)
    (gh : GHResp) (gl : GLResp) (st : UIState) (url : String) (parsed : MRRef)
    (h : parseMRUrl url = some parsed) :
    (parsed.platform = .github → (gh.prOk && gh.filesOk) = false →
      handleFetchDiff render gh gl st url
        = { st with
            isLoading := false
            filesChanged := []
            selectedFile := none
            diffHtml := "" })
    ∧ (parsed.platform = .gitlab → (gl.mrOk && gl.changesOk) = false →
      handleFetchDiff render gh gl st url
        = { st with
            isLoading := false
            filesChanged := []
            selectedFile := none
            diffHtml := "" })
    ∧ (parsed.platform = .github → (gh.prOk && gh.filesOk) = true →
      (handleFetchDiff render gh gl st url).mrTitle = gh.title
        ∧ (handleFetchDiff render gh gl st url).mrAuthor = gh.userLogin.getD "Unknown"
        ∧ (handleFetchDiff render gh gl st url).filesChanged = gh.files.map mapGHFile
        ∧ (handleFetchDiff render gh gl st url).isLoading = false)
    ∧ (parsed.platform = .gitlab → (gl.mrOk && gl.changesOk) = true →
      (handleFetchDiff render gh gl st url).mrTitle = gl.title
        ∧ (handleFetchDiff render gh gl st url).mrAuthor = gl.authorUsername.getD "Unknown"
        ∧ (handleFetchDiff render gh gl st url).filesChanged = (gl.changes.getD []).map mapGLChange
        ∧ (handleFetchDiff render gh gl st url).isLoading = false) := by
  refine ⟨?_, ?_, ?_, ?_⟩
  · intro hplat hfail
    rw [handleFetchDiff_unfold render gh gl st url parsed h]
    simp only [hplat]
    rw [fetchGH_fail render _ gh hfail]
  · intro hplat hfail
    rw [handleFetchDiff_unfold render gh gl st url parsed h]
    simp only [hplat]
    rw [fetchGL_fail render _ gl hfail]
  · intro hplat hsucc
    rw [handleFetchDiff_unfold render gh gl st url parsed h]
    simp only [hplat]
    rcases hok : fetchGitHubPR render
        { st with
          isLoading := true
          filesChanged := []
          selectedFile := none
          diffHtml := "" } gh with st2 | st2
    · exfalso
      have hff := fetchGH_error render _ gh st2 hok
      rw [hsucc] at hff
      exact Bool.noConfusion hff
    · obtain ⟨h1, h2, h3, h4⟩ := fetchGH_ok_pieces render _ gh st2 hok
      exact ⟨h2, h3, h4, rfl⟩
  · intro hplat hsucc
    rw [handleFetchDiff_unfold render gh gl st url parsed h]
    simp only [hplat]
    rcases hok : fetchGitLabMR render
        { st with
          isLoading := true
          filesChanged := []
          selectedFile := none
          diffHtml := "" } gl with st2 | st2
    · exfalso
      have hff := fetchGL_error render _ gl st2 hok
      rw [hsucc] at hff
      exact Bool.noConfusion hff
    · obtain ⟨h1, h2, h3, h4⟩ := fetchGL_ok_pieces render _ gl st2 hok
      exact ⟨h2, h3, h4, rfl⟩

/-- C2 witness: the amended failure and success behaviour evaluated on a
concrete GitHub fetch. -/
theorem c2_amended_witness :
    handleFetchDiff (fun _ _ => "") ⟨false, true, "New", some "u", []⟩
        ⟨true, true, "", none, none⟩
        ⟨true, [], none, "x", "Old title", "Old author"⟩
        "https://github.com/a/b/pull/1"
      = ⟨false, [], none, "", "Old title", "Old author"⟩
    ∧ (handleFetchDiff (fun _ _ => "") ⟨true, true, "New", some "u", []⟩
        ⟨true, true, "", none, none⟩
        ⟨true, [], none, "x", "Old title", "Old author"⟩
        "https://github.com/a/b/pull/1").mrTitle = "New" :=
  ⟨(c2_amended (fun _ _ => "") ⟨false, true, "New", some "u", []⟩
      ⟨true, true, "", none, none⟩ ⟨true, [], none, "x", "Old title", "Old author"⟩
      "https://github.com/a/b/pull/1" ⟨.github, "a", "b", "1"⟩ (by decide)).1 rfl rfl,
   ((c2_amended (fun _ _ => "") ⟨true, true, "New", some "u", []⟩
      ⟨true, true, "", none, none⟩ ⟨true, [], none, "x", "Old title", "Old author"⟩
      "https://github.com/a/b/pull/1" ⟨.github, "a", "b", "1"⟩ (by decide)).2.2.1 rfl rfl).1⟩

/-! ## Claim C5: GitLab addition/deletion counting -/

/-- The two-character regex scan counts exactly the qualifying positions:
skipping the second matched character never skips a line start, because
the first matched character is the mark, not a line terminator. -/
theorem countRe_eq_pos (mark : Char) (hm : isLineTerm mark = false) :
    ∀ (cs : List Char) (b : Bool), countRe mark b cs = posCount mark b cs := by
  have H : ∀ (n : Nat) (cs : List Char), cs.length ≤ n → ∀ b,
      countRe mark b cs = posCount mark b cs := by
    intro n
    induction n with
    | zero =>
      intro cs hl b
      rw [List.length_eq_zero.mp (Nat.le_zero.mp hl)]
      rfl
    | succ n ih =>
      intro cs hl b
      match cs with
      | [] => rfl
      | [c] => rfl
      | c1 :: c2 :: rest =>
        simp only [countRe, posCount]
        by_cases hc : (b && decide (c1 = mark) && !decide (c2 = mark)) = true
        · rw [if_pos hc, if_pos hc]
          have hc1 : c1 = mark := by
            simp only [Bool.and_eq_true, decide_eq_true_eq] at hc
            exact hc.1.2
          rw [hc1, hm]
          match rest with
          | [] => rfl
          | c3 :: rest' =>
            have hih := ih (c3 :: rest') (by simp at hl ⊢; omega) (isLineTerm c2)
            simp [posCount, hih]
        · rw [if_neg hc, if_neg hc]
          have := ih (c2 :: rest) (by simp at hl ⊢; omega) (isLineTerm c1)
          omega
  intro cs b
  exact H cs.length cs (Nat.le_refl _) b

/-- The line split never returns the empty list of lines. -/
theorem linesOf_ne_nil (cs : List Char) : linesOf cs ≠ [] := by
  cases cs with
  | nil => simp [linesOf]
  | cons c rest =>
    unfold linesOf
    split
    · simp
    · split <;> simp

/-- Shape of `linesOf` on a cons cell. -/
theorem linesOf_cons (c : Char) (rest : List Char) :
    (c = '\n' → linesOf (c :: rest) = [] :: linesOf rest)
    ∧ (c ≠ '\n' → ∀ hd tl, linesOf rest = hd :: tl →
        linesOf (c :: rest) = (c :: hd) :: tl) := by
  constructor
  · intro h
    simp only [linesOf, if_pos h]
  · intro h hd tl heq
    simp only [linesOf, if_neg h, heq]


/-- On CR/LS/PS-free characters the anchor behaviour is determined by the
newline alone. -/
theorem isLineTerm_eq (c : Char)
    (h : c ≠ '\r' ∧ c ≠ ' ' ∧ c ≠ ' ') :
    isLineTerm c = decide (c = '\n') := by
  obtain ⟨h1, h2, h3⟩ := h
  unfold isLineTerm
  by_cases hc : c = '\n' <;> simp_all

/-- An empty first line never counts. -/
theorem countML_nil_cons (mark : Char) (hd : List Char) (tl : List (List Char)) :
    countML mark ([] :: hd :: tl) = countML mark (hd :: tl) := by
  simp [countML, single1]

/-- Over CR/LS/PS-free text the per-position regex count is the line-based
count: every line but the last is counted by the single-mark test (its
newline supplies the second matched character), the last line by the
strict test. -/
theorem pos_eq_lines (mark : Char) (hm : isLineTerm mark = false) :
    ∀ cs : List Char, (∀ c ∈ cs, c ≠ '\r' ∧ c ≠ ' ' ∧ c ≠ ' ') →
      posCount mark true cs = countML mark (linesOf cs)
      ∧ posCount mark false cs = countMLtail mark (linesOf cs) := by
  have hmn : ('\n' : Char) ≠ mark := by
    intro he
    rw [← he] at hm
    exact absurd hm (by simp [isLineTerm])
  intro cs
  induction cs with
  | nil => exact fun _ => ⟨rfl, rfl⟩
  | cons c1 tl ih =>
    intro hcr
    have hc1 := hcr c1 (List.mem_cons_self _ _)
    have htl : ∀ c ∈ tl, c ≠ '\r' ∧ c ≠ ' ' ∧ c ≠ ' ' :=
      fun c hc => hcr c (List.mem_cons_of_mem _ hc)
    have hterm1 : isLineTerm c1 = decide (c1 = '\n') := isLineTerm_eq c1 hc1
    cases tl with
    | nil =>
      by_cases hn : c1 = '\n'
      · subst hn
        exact ⟨rfl, rfl⟩
      · have hl1 : linesOf [c1] = [[c1]] := by
          simp only [linesOf, if_neg hn]
        refine ⟨?_, ?_⟩ <;> rw [hl1] <;> rfl
    | cons c2 rest =>
      have ihtl := ih htl
      obtain ⟨hd, tlx, hlt⟩ : ∃ hd tlx, linesOf (c2 :: rest) = hd :: tlx := by
        cases hx : linesOf (c2 :: rest) with
        | nil => exact absurd hx (linesOf_ne_nil _)
        | cons a b => exact ⟨a, b, rfl⟩
      have hpf : posCount mark false (c2 :: rest) = countML mark tlx := by
        have h2 := ihtl.2
        rw [hlt] at h2
        exact h2
      by_cases hn : c1 = '\n'
      · subst hn
        have hl1 : linesOf ('\n' :: c2 :: rest) = [] :: linesOf (c2 :: rest) :=
          (linesOf_cons '\n' (c2 :: rest)).1 rfl
        have hpos : ∀ b, posCount mark b ('\n' :: c2 :: rest)
            = posCount mark true (c2 :: rest) := by
          intro b
          simp only [posCount]
          rw [show isLineTerm '\n' = true from by simp [isLineTerm]]
          simp [hmn]
        refine ⟨?_, ?_⟩
        · rw [hpos true, hl1, hlt, countML_nil_cons, ← hlt, ihtl.1]
        · rw [hpos false, hl1]
          show posCount mark true (c2 :: rest) = countML mark (linesOf (c2 :: rest))
          exact ihtl.1
      · have hl1 : linesOf (c1 :: c2 :: rest) = (c1 :: hd) :: tlx :=
          (linesOf_cons c1 (c2 :: rest)).2 hn hd tlx hlt
        have hterm1f : isLineTerm c1 = false := by
          rw [hterm1]
          simp [hn]
        -- the first line of the tail starts with c2, or c2 is a newline
        have hhd : (c2 = '\n' ∧ hd = [] ∧ tlx = linesOf rest)
            ∨ (c2 ≠ '\n' ∧ ∃ hd2, hd = c2 :: hd2) := by
          by_cases hn2 : c2 = '\n'
          · left
            have hx := (linesOf_cons c2 rest).1 hn2
            rw [hx] at hlt
            injection hlt with ha hb
            exact ⟨hn2, ha.symm, hb.symm⟩
          · right
            obtain ⟨hd2, tl2, hlt2⟩ : ∃ h2 t2, linesOf rest = h2 :: t2 := by
              cases hx : linesOf rest with
              | nil => exact absurd hx (linesOf_ne_nil _)
              | cons a b => exact ⟨a, b, rfl⟩
            have hx := (linesOf_cons c2 rest).2 hn2 hd2 tl2 hlt2
            rw [hx] at hlt
            injection hlt with ha hb
            exact ⟨hn2, hd2, ha.symm⟩
        -- the contribution of position c1 matches the line tests
        have hsingle : (decide (c1 = mark) && !decide (c2 = mark))
            = single1 mark (c1 :: hd) := by
          rcases hhd with ⟨hn2, hhd0, _⟩ | ⟨hn2, hd2, hhd2⟩
          · subst hhd0
            subst hn2
            simp [single1, hmn]
          · subst hhd2
            simp [single1]
        refine ⟨?_, ?_⟩
        · simp only [posCount, hterm1f, Bool.true_and, hpf, hl1]
          rw [hsingle]
          cases htx : tlx with
          | nil =>
            rcases hhd with ⟨hn2, hhd0, htlx⟩ | ⟨hn2, hd2, hhd2⟩
            · rw [htx] at htlx
              exact absurd htlx.symm (linesOf_ne_nil _)
            · subst hhd2
              subst htx
              simp [countML, single1, strict1]
          | cons l2 ls2 =>
            subst htx
            simp [countML]
        · simp only [posCount, hterm1f, Bool.false_and, hpf, hl1]
          simp [countMLtail]

/-- Away from the bare-mark line the two line tests agree. -/
theorem single1_eq_strict (mark : Char) (l : List Char) (h : l ≠ [mark]) :
    single1 mark l = strict1 mark l := by
  match l with
  | [] => rfl
  | [x] =>
    have hx : x ≠ mark := fun he => h (by rw [he])
    simp [single1, strict1, hx]
  | x :: y :: tl => rfl

/-- When the last line is not the bare mark, the line-based count is the
plain count of single-mark lines. -/
theorem countML_eq_filter (mark : Char) :
    ∀ L : List (List Char), L ≠ [] → lastD L ≠ [mark] →
      countML mark L = (L.filter (single1 mark)).length := by
  intro L
  induction L with
  | nil => exact fun h _ => absurd rfl h
  | cons l ls ih =>
    intro _ hlast
    cases ls with
    | nil =>
      have hl : l ≠ [mark] := hlast
      rw [show countML mark [l] = if strict1 mark l = true then 1 else 0 from rfl]
      rw [← single1_eq_strict mark l hl]
      by_cases hs : single1 mark l = true
      · simp [List.filter_cons, hs]
      · simp [List.filter_cons, hs]
    | cons l2 ls2 =>
      have hlast2 : lastD (l2 :: ls2) ≠ [mark] := hlast
      have hih := ih (by simp) hlast2
      rw [show countML mark (l :: l2 :: ls2)
          = (if single1 mark l = true then 1 else 0) + countML mark (l2 :: ls2) from rfl]
      rw [hih]
      by_cases hs : single1 mark l = true
      · simp [List.filter_cons, hs, Nat.add_comm]
      · simp [List.filter_cons, hs]

/-- C5 counterexample: for the diff text consisting of the single
character `+`, the adapter reports 0 additions although exactly one line
of the text begins with a single `+`. -/
theorem c5_counterexample :
    (mapGLChange ⟨false, false, false, some "+", none, none⟩).additions = 0
    ∧ claimMarkCount '+' "+" = 1 := by
  refine ⟨by decide, by decide⟩

/-- C5 (amended): over a diff whose characters include no carriage return
or Unicode line/paragraph separator and whose last line is not a bare `+`
or `-`, the adapter's `additions` equals the number of lines beginning
with a single `+` and `deletions` the number of lines beginning with a
single `-`; an unterminated final line consisting of the bare mark alone
is not counted (the regex needs a following character), and after a
carriage return the scan, unlike a newline split, starts a new line. -/
theorem c5_amended (c : GLChange) (d : String) (hdiff : c.diff = some d)
    (hcr : ∀ ch ∈ d.data, ch ≠ '\r' ∧ ch ≠ ' ' ∧ ch ≠ ' ')
    (hplus : lastD (linesOf d.data) ≠ ['+'])
    (hminus : lastD (linesOf d.data) ≠ ['-']) :
    (mapGLChange c).additions = claimMarkCount '+' d
    ∧ (mapGLChange c).deletions = claimMarkCount '-' d := by
  have hadd : (mapGLChange c).additions = countRe '+' true d.data := by
    simp [mapGLChange, hdiff]
  have hdel : (mapGLChange c).deletions = countRe '-' true d.data := by
    simp [mapGLChange, hdiff]
  constructor
  · rw [hadd, countRe_eq_pos '+' (by decide) d.data true,
      (pos_eq_lines '+' (by decide) d.data hcr).1,
      countML_eq_filter '+' (linesOf d.data) (linesOf_ne_nil _) hplus]
    rfl
  · rw [hdel, countRe_eq_pos '-' (by decide) d.data true,
      (pos_eq_lines '-' (by decide) d.data hcr).1,
      countML_eq_filter '-' (linesOf d.data) (linesOf_ne_nil _) hminus]
    rfl

/-- C5 witness: the amended counting rule evaluated on the specification's
scenario fragment, giving one addition and one deletion. -/
theorem c5_amended_witness :
    (mapGLChange ⟨false, false, false, some "+foo\n++bar\n-baz\n--qux\n",
        none, none⟩).additions = 1
    ∧ (mapGLChange ⟨false, false, false, some "+foo\n++bar\n-baz\n--qux\n",
        none, none⟩).deletions = 1 := by
  have h := c5_amended
    ⟨false, false, false, some "+foo\n++bar\n-baz\n--qux\n", none, none⟩
    "+foo\n++bar\n-baz\n--qux\n" rfl (by decide) (by decide) (by decide)
  exact ⟨h.1.trans (by decide), h.2.trans (by decide)⟩

/-! ## Claim C1: URL resolution -/

/-- Dropping a literal it starts with leaves the remainder. -/
theorem dropLit_self (lit : List Char) : ∀ cs, dropLit lit (lit ++ cs) = some cs := by
  induction lit with
  | nil => intro cs; rfl
  | cons l ls ih =>
    intro cs
    simp [dropLit, ih]

/-- A successful literal drop exhibits the literal at the front. -/
theorem dropLit_some (lit : List Char) :
    ∀ cs rest, dropLit lit cs = some rest → cs = lit ++ rest := by
  induction lit with
  | nil =>
    intro cs rest h
    have h2 : cs = rest := by injection h
    simp [h2]
  | cons l ls ih =>
    intro cs rest h
    cases cs with
    | nil => exact Option.noConfusion h
    | cons c cs' =>
      unfold dropLit at h
      split at h
      · next hc =>
        simp [hc, ih cs' rest h]
      · exact Option.noConfusion h

/-- Splitting off a slash-free nonempty segment followed by a slash. -/
theorem seg_yes (s : List Char) :
    ∀ rest, s ≠ [] → (∀ c ∈ s, c ≠ '/') →
      seg? (s ++ '/' :: rest) = some (s, rest) := by
  have htw : ∀ (s : List Char) rest, (∀ c ∈ s, c ≠ '/') →
      (s ++ '/' :: rest).takeWhile (fun c => !(c = '/')) = s
      ∧ (s ++ '/' :: rest).dropWhile (fun c => !(c = '/')) = '/' :: rest := by
    intro s
    induction s with
    | nil =>
      intro rest _
      constructor <;> simp [List.takeWhile, List.dropWhile]
    | cons c cs ih =>
      intro rest hall
      have hc : c ≠ '/' := hall c (List.mem_cons_self _ _)
      have ihc := ih rest (fun x hx => hall x (List.mem_cons_of_mem _ hx))
      constructor
      · simp [List.takeWhile, hc, ihc.1]
      · simp [List.dropWhile, hc, ihc.2]
  intro rest hne hall
  unfold seg?
  rw [(htw s rest hall).1, (htw s rest hall).2, if_neg hne]
  rfl

/-- Taking while a predicate holds passes over a block that satisfies it
everywhere. -/
theorem takeWhile_all_append (p : Char → Bool) :
    ∀ l l2 : List Char, (∀ c ∈ l, p c = true) →
      (l ++ l2).takeWhile p = l ++ l2.takeWhile p := by
  intro l
  induction l with
  | nil => intro l2 _; rfl
  | cons c cs ih =>
    intro l2 hall
    rw [List.cons_append, List.takeWhile_cons,
      if_pos (hall c (List.mem_cons_self _ _)),
      ih l2 (fun x hx => hall x (List.mem_cons_of_mem _ hx))]
    rfl

/-- A nonempty all-digit run at the front is matched, together with any
further digits directly after it: the greedy maximal digit capture. -/
theorem digits_append (num suf : List Char) (hne : num ≠ [])
    (hdig : ∀ c ∈ num, c.isDigit = true) :
    digits? (num ++ suf) = some (num ++ suf.takeWhile Char.isDigit) := by
  unfold digits?
  rw [takeWhile_all_append Char.isDigit num suf hdig]
  rw [if_neg (fun h => hne (List.append_eq_nil.mp h).1)]

/-- The GitHub pattern succeeds at any position exhibiting its shape,
capturing the two segments and the maximal digit run found there. -/
theorem matchGH_at_start (owner repo num suf : List Char)
    (h1 : owner ≠ []) (h2 : ∀ c ∈ owner, c ≠ '/')
    (h3 : repo ≠ []) (h4 : ∀ c ∈ repo, c ≠ '/')
    (h5 : num ≠ []) (h6 : ∀ c ∈ num, c.isDigit = true) :
    matchGHAt ("github.com/".data
        ++ (owner ++ '/' :: (repo ++ '/' :: ("pull/".data ++ (num ++ suf)))))
      = some ⟨.github, String.mk owner, String.mk repo,
          String.mk (num ++ suf.takeWhile Char.isDigit)⟩ := by
  unfold matchGHAt
  rw [dropLit_self]
  dsimp only
  rw [seg_yes owner _ h1 h2]
  dsimp only
  rw [seg_yes repo _ h3 h4]
  dsimp only
  rw [dropLit_self]
  dsimp only
  rw [digits_append num suf h5 h6]

/-- The GitLab pattern succeeds at any position exhibiting its shape,
capturing the two segments and the maximal digit run found there. -/
theorem matchGL_at_start (owner repo num suf : List Char)
    (h1 : owner ≠ []) (h2 : ∀ c ∈ owner, c ≠ '/')
    (h3 : repo ≠ []) (h4 : ∀ c ∈ repo, c ≠ '/')
    (h5 : num ≠ []) (h6 : ∀ c ∈ num, c.isDigit = true) :
    matchGLAt ("gitlab.com/".data
        ++ (owner ++ '/' :: (repo ++ '/' :: ("-/merge_requests/".data ++ (num ++ suf)))))
      = some ⟨.gitlab, String.mk owner, String.mk repo,
          String.mk (num ++ suf.takeWhile Char.isDigit)⟩ := by
  unfold matchGLAt
  rw [dropLit_self]
  dsimp only
  rw [seg_yes owner _ h1 h2]
  dsimp only
  rw [seg_yes repo _ h3 h4]
  dsimp only
  rw [dropLit_self]
  dsimp only
  rw [digits_append num suf h5 h6]

/-- A successful leftmost search splits the string at the match position. -/
theorem firstMatch_some {α : Type} (f : List Char → Option α) :
    ∀ cs r, firstMatch f cs = some r →
      ∃ pre suf, cs = pre ++ suf ∧ f suf = some r := by
  intro cs
  induction cs with
  | nil =>
    intro r h
    exact ⟨[], [], rfl, h⟩
  | cons c cs' ih =>
    intro r h
    unfold firstMatch at h
    cases hf : f (c :: cs') with
    | some r' =>
      rw [hf] at h
      dsimp only at h
      have h2 : r' = r := by injection h
      exact ⟨[], c :: cs', rfl, by rw [hf, h2]⟩
    | none =>
      rw [hf] at h
      dsimp only at h
      obtain ⟨pre, suf, heq, hs⟩ := ih r h
      exact ⟨c :: pre, suf, by rw [heq, List.cons_append], hs⟩

/-- A matcher success at any suffix makes the leftmost search succeed. -/
theorem firstMatch_isSome {α : Type} (f : List Char → Option α) :
    ∀ (cs suf : List Char) (r : α), List.IsSuffix suf cs → f suf = some r →
      ∃ r2, firstMatch f cs = some r2 := by
  intro cs
  induction cs with
  | nil =>
    intro suf r hs hf
    rw [List.suffix_nil.mp hs] at hf
    exact ⟨r, hf⟩
  | cons c cs' ih =>
    intro suf r hs hf
    cases hfc : f (c :: cs') with
    | some r' =>
      exact ⟨r', by simp only [firstMatch, hfc]⟩
    | none =>
      rcases List.suffix_cons_iff.mp hs with h | h
      · rw [h] at hf
        rw [hf] at hfc
        exact Option.noConfusion hfc
      · obtain ⟨r2, hr2⟩ := ih suf r h hf
        refine ⟨r2, ?_⟩
        simp only [firstMatch, hfc]
        exact hr2

/-- A successful segment match splits off a nonempty slash-free run. -/
theorem seg_some (cs : List Char) (s r : List Char)
    (h : seg? cs = some (s, r)) :
    cs = s ++ '/' :: r ∧ s ≠ [] ∧ ∀ c ∈ s, c ≠ '/' := by
  unfold seg? at h
  dsimp only at h
  split at h
  · exact Option.noConfusion h
  · next hne =>
    split at h
    · next r2 heq =>
      have hpair : (cs.takeWhile (fun c => !(c = '/')), r2) = (s, r) := by
        injection h
      have h1 : cs.takeWhile (fun c => !(c = '/')) = s := congrArg Prod.fst hpair
      have h2 : r2 = r := congrArg Prod.snd hpair
      refine ⟨?_, h1 ▸ hne, ?_⟩
      · rw [← h1, ← h2, ← heq]
        exact (List.takeWhile_append_dropWhile _ _).symm
      · intro c hcm
        have := List.mem_takeWhile_imp (h1 ▸ hcm)
        simpa using this
    · exact Option.noConfusion h

/-- A successful digit match splits off a nonempty all-digit run. -/
theorem digits_some (cs num : List Char) (h : digits? cs = some num) :
    num ≠ [] ∧ (∀ c ∈ num, c.isDigit = true) ∧ ∃ suf, cs = num ++ suf := by
  unfold digits? at h
  dsimp only at h
  split at h
  · exact Option.noConfusion h
  · next hne =>
    have h1 : cs.takeWhile Char.isDigit = num := by injection h
    refine ⟨h1 ▸ hne, ?_, cs.dropWhile Char.isDigit, ?_⟩
    · intro c hcm
      exact List.mem_takeWhile_imp (h1 ▸ hcm)
    · rw [← h1]
      exact (List.takeWhile_append_dropWhile _ _).symm

/-- Data of a constructed string. -/
theorem mk_data (l : List Char) : (String.mk l).data = l := rfl

/-- A successful GitHub match exhibits the full recognized shape, and the
returned fields are exactly the captured segments of that shape. -/
theorem matchGH_shape (cs : List Char) (r : MRRef) (h : matchGHAt cs = some r) :
    ∃ owner repo num suf,
      cs = "github.com/".data
        ++ (owner ++ '/' :: (repo ++ '/' :: ("pull/".data ++ (num ++ suf))))
      ∧ SegStr owner ∧ SegStr repo ∧ num ≠ [] ∧ (∀ c ∈ num, c.isDigit = true)
      ∧ r = ⟨.github, String.mk owner, String.mk repo, String.mk num⟩ := by
  unfold matchGHAt at h
  cases h0 : dropLit "github.com/".data cs with
  | none => rw [h0] at h; exact Option.noConfusion h
  | some r0 =>
    rw [h0] at h
    dsimp only at h
    cases h1 : seg? r0 with
    | none => rw [h1] at h; exact Option.noConfusion h
    | some p1 =>
      obtain ⟨owner, r1⟩ := p1
      rw [h1] at h
      dsimp only at h
      cases h2 : seg? r1 with
      | none => rw [h2] at h; exact Option.noConfusion h
      | some p2 =>
        obtain ⟨repo, r2⟩ := p2
        rw [h2] at h
        dsimp only at h
        cases h3 : dropLit "pull/".data r2 with
        | none => rw [h3] at h; exact Option.noConfusion h
        | some r3 =>
          rw [h3] at h
          dsimp only at h
          cases h4 : digits? r3 with
          | none => rw [h4] at h; exact Option.noConfusion h
          | some num =>
            rw [h4] at h
            dsimp only at h
            have hr : (⟨.github, String.mk owner, String.mk repo,
                String.mk num⟩ : MRRef) = r := by injection h
            have e0 := dropLit_some _ _ _ h0
            have e1 := seg_some _ _ _ h1
            have e2 := seg_some _ _ _ h2
            have e3 := dropLit_some _ _ _ h3
            have e4 := digits_some _ _ h4
            obtain ⟨suf, hsuf⟩ := e4.2.2
            refine ⟨owner, repo, num, suf, ?_, ⟨e1.2.1, e1.2.2⟩,
              ⟨e2.2.1, e2.2.2⟩, e4.1, e4.2.1, hr.symm⟩
            rw [e0, e1.1, e2.1, e3, hsuf]

/-- A successful GitLab match exhibits the full recognized shape, and the
returned fields are exactly the captured segments of that shape. -/
theorem matchGL_shape (cs : List Char) (r : MRRef) (h : matchGLAt cs = some r) :
    ∃ owner repo num suf,
      cs = "gitlab.com/".data
        ++ (owner ++ '/' :: (repo ++ '/' :: ("-/merge_requests/".data ++ (num ++ suf))))
      ∧ SegStr owner ∧ SegStr repo ∧ num ≠ [] ∧ (∀ c ∈ num, c.isDigit = true)
      ∧ r = ⟨.gitlab, String.mk owner, String.mk repo, String.mk num⟩ := by
  unfold matchGLAt at h
  cases h0 : dropLit "gitlab.com/".data cs with
  | none => rw [h0] at h; exact Option.noConfusion h
  | some r0 =>
    rw [h0] at h
    dsimp only at h
    cases h1 : seg? r0 with
    | none => rw [h1] at h; exact Option.noConfusion h
    | some p1 =>
      obtain ⟨owner, r1⟩ := p1
      rw [h1] at h
      dsimp only at h
      cases h2 : seg? r1 with
      | none => rw [h2] at h; exact Option.noConfusion h
      | some p2 =>
        obtain ⟨repo, r2⟩ := p2
        rw [h2] at h
        dsimp only at h
        cases h3 : dropLit "-/merge_requests/".data r2 with
        | none => rw [h3] at h; exact Option.noConfusion h
        | some r3 =>
          rw [h3] at h
          dsimp only at h
          cases h4 : digits? r3 with
          | none => rw [h4] at h; exact Option.noConfusion h
          | some num =>
            rw [h4] at h
            dsimp only at h
            have hr : (⟨.gitlab, String.mk owner, String.mk repo,
                String.mk num⟩ : MRRef) = r := by injection h
            have e0 := dropLit_some _ _ _ h0
            have e1 := seg_some _ _ _ h1
            have e2 := seg_some _ _ _ h2
            have e3 := dropLit_some _ _ _ h3
            have e4 := digits_some _ _ h4
            obtain ⟨suf, hsuf⟩ := e4.2.2
            refine ⟨owner, repo, num, suf, ?_, ⟨e1.2.1, e1.2.2⟩,
              ⟨e2.2.1, e2.2.2⟩, e4.1, e4.2.1, hr.symm⟩
            rw [e0, e1.1, e2.1, e3, hsuf]

/-- C1: full characterization of the resolver on every URL string.  The
resolver returns the NotRecognized result `none` exactly when the string
contains neither of the two recognized shapes; and whenever it returns a
reference, the string contains an occurrence of the returned platform's
shape whose captured path segments — owner, repo and request number —
are exactly the fields of that reference. -/
theorem c1_url_resolution (url : String) :
    (parseMRUrl url = none
      ↔ ¬ HasGithubShape url.data ∧ ¬ HasGitlabShape url.data)
    ∧ (∀ r : MRRef, parseMRUrl url = some r → r.platform = .github →
        ∃ pre owner repo num suf,
          url.data = pre ++ "github.com/".data ++ owner ++ '/' :: repo
            ++ "/pull/".data ++ num ++ suf
          ∧ SegStr owner ∧ SegStr repo ∧ num ≠ [] ∧ (∀ c ∈ num, c.isDigit = true)
          ∧ r.owner = String.mk owner ∧ r.repo = String.mk repo
          ∧ r.mrNumber = String.mk num)
    ∧ (∀ r : MRRef, parseMRUrl url = some r → r.platform = .gitlab →
        ∃ pre owner repo num suf,
          url.data = pre ++ "gitlab.com/".data ++ owner ++ '/' :: repo
            ++ "/-/merge_requests/".data ++ num ++ suf
          ∧ SegStr owner ∧ SegStr repo ∧ num ≠ [] ∧ (∀ c ∈ num, c.isDigit = true)
          ∧ r.owner = String.mk owner ∧ r.repo = String.mk repo
          ∧ r.mrNumber = String.mk num) := by
  have hGH : ∀ r0 : MRRef, firstMatch matchGHAt url.data = some r0 →
      ∃ pre owner repo num suf,
        url.data = pre ++ "github.com/".data ++ owner ++ '/' :: repo
          ++ "/pull/".data ++ num ++ suf
        ∧ SegStr owner ∧ SegStr repo ∧ num ≠ [] ∧ (∀ c ∈ num, c.isDigit = true)
        ∧ r0 = ⟨.github, String.mk owner, String.mk repo, String.mk num⟩ := by
    intro r0 hfm
    obtain ⟨pre, suf0, hsplit, hm⟩ := firstMatch_some _ _ _ hfm
    obtain ⟨o, rp, n, s, hshape, hs1, hs2, hn1, hn2, hr⟩ := matchGH_shape _ _ hm
    refine ⟨pre, o, rp, n, s, ?_, hs1, hs2, hn1, hn2, hr⟩
    rw [hsplit, hshape,
      show ("/pull/".data : List Char) = '/' :: "pull/".data from rfl]
    simp [List.append_assoc]
  have hGL : ∀ r0 : MRRef, firstMatch matchGLAt url.data = some r0 →
      ∃ pre owner repo num suf,
        url.data = pre ++ "gitlab.com/".data ++ owner ++ '/' :: repo
          ++ "/-/merge_requests/".data ++ num ++ suf
        ∧ SegStr owner ∧ SegStr repo ∧ num ≠ [] ∧ (∀ c ∈ num, c.isDigit = true)
        ∧ r0 = ⟨.gitlab, String.mk owner, String.mk repo, String.mk num⟩ := by
    intro r0 hfm
    obtain ⟨pre, suf0, hsplit, hm⟩ := firstMatch_some _ _ _ hfm
    obtain ⟨o, rp, n, s, hshape, hs1, hs2, hn1, hn2, hr⟩ := matchGL_shape _ _ hm
    refine ⟨pre, o, rp, n, s, ?_, hs1, hs2, hn1, hn2, hr⟩
    rw [hsplit, hshape,
      show ("/-/merge_requests/".data : List Char)
        = '/' :: "-/merge_requests/".data from rfl]
    simp [List.append_assoc]
  have hHasGH : HasGithubShape url.data →
      ∃ r2, firstMatch matchGHAt url.data = some r2 := by
    rintro ⟨pre, o, rp, n, s, heq, hs1, hs2, hn1, hn2⟩
    have hm := matchGH_at_start o rp n s hs1.1 hs1.2 hs2.1 hs2.2 hn1 hn2
    refine firstMatch_isSome matchGHAt url.data _ _ ⟨pre, ?_⟩ hm
    rw [heq, show ("/pull/".data : List Char) = '/' :: "pull/".data from rfl]
    simp [List.append_assoc]
  have hHasGL : HasGitlabShape url.data →
      ∃ r2, firstMatch matchGLAt url.data = some r2 := by
    rintro ⟨pre, o, rp, n, s, heq, hs1, hs2, hn1, hn2⟩
    have hm := matchGL_at_start o rp n s hs1.1 hs1.2 hs2.1 hs2.2 hn1 hn2
    refine firstMatch_isSome matchGLAt url.data _ _ ⟨pre, ?_⟩ hm
    rw [heq, show ("/-/merge_requests/".data : List Char)
      = '/' :: "-/merge_requests/".data from rfl]
    simp [List.append_assoc]
  refine ⟨⟨?_, ?_⟩, ?_, ?_⟩
  · intro hnone
    constructor
    · intro hgh
      obtain ⟨r2, hr2⟩ := hHasGH hgh
      unfold parseMRUrl at hnone
      rw [hr2] at hnone
      dsimp only at hnone
      exact Option.noConfusion hnone
    · intro hgl
      obtain ⟨r2, hr2⟩ := hHasGL hgl
      unfold parseMRUrl at hnone
      cases hg : firstMatch matchGHAt url.data with
      | some rr =>
        rw [hg] at hnone
        dsimp only at hnone
        exact Option.noConfusion hnone
      | none =>
        rw [hg] at hnone
        dsimp only at hnone
        rw [hr2] at hnone
        exact Option.noConfusion hnone
  · rintro ⟨hng, hngl⟩
    cases hp : parseMRUrl url with
    | none => rfl
    | some r =>
      exfalso
      unfold parseMRUrl at hp
      cases hg : firstMatch matchGHAt url.data with
      | some r0 =>
        obtain ⟨pre, o, rp, n, s, heq, hs1, hs2, hn1, hn2, _⟩ := hGH r0 hg
        exact hng ⟨pre, o, rp, n, s, heq, hs1, hs2, hn1, hn2⟩
      | none =>
        rw [hg] at hp
        dsimp only at hp
        obtain ⟨pre, o, rp, n, s, heq, hs1, hs2, hn1, hn2, _⟩ := hGL r hp
        exact hngl ⟨pre, o, rp, n, s, heq, hs1, hs2, hn1, hn2⟩
  · intro r hp hplat
    unfold parseMRUrl at hp
    cases hg : firstMatch matchGHAt url.data with
    | some r0 =>
      rw [hg] at hp
      dsimp only at hp
      have hpr : r0 = r := by injection hp
      obtain ⟨pre, o, rp, n, s, heq, hs1, hs2, hn1, hn2, hr⟩ := hGH r0 hg
      have hr2 : r = ⟨.github, String.mk o, String.mk rp, String.mk n⟩ :=
        hpr.symm.trans hr
      refine ⟨pre, o, rp, n, s, heq, hs1, hs2, hn1, hn2, ?_, ?_, ?_⟩ <;> rw [hr2]
    | none =>
      rw [hg] at hp
      dsimp only at hp
      obtain ⟨_, _, _, _, _, _, _, _, _, _, hr⟩ := hGL r hp
      rw [hr] at hplat
      exact absurd hplat (by simp)
  · intro r hp hplat
    unfold parseMRUrl at hp
    cases hg : firstMatch matchGHAt url.data with
    | some r0 =>
      rw [hg] at hp
      dsimp only at hp
      have hpr : r0 = r := by injection hp
      obtain ⟨_, _, _, _, _, _, _, _, _, _, hr⟩ := hGH r0 hg
      rw [← hpr, hr] at hplat
      exact absurd hplat (by simp)
    | none =>
      rw [hg] at hp
      dsimp only at hp
      have hpr := hGL r hp
      obtain ⟨pre, o, rp, n, s, heq, hs1, hs2, hn1, hn2, hr⟩ := hpr
      refine ⟨pre, o, rp, n, s, heq, hs1, hs2, hn1, hn2, ?_, ?_, ?_⟩ <;> rw [hr]

/-- C1 witness: the characterization evaluated on the specification's
scenario URLs, a URL with a trailing path after the number, and a foreign
host — including the derived no-shape facts for the rejected URL and the
captured-segment decompositions for two accepted ones. -/
theorem c1_url_resolution_witness :
    (¬ HasGithubShape "https://bitbucket.org/x/y/pull/1".data
      ∧ ¬ HasGitlabShape "https://bitbucket.org/x/y/pull/1".data)
    ∧ (∃ pre owner repo num suf,
        "github.com/a/b/pull/9".data = pre ++ "github.com/".data ++ owner
          ++ '/' :: repo ++ "/pull/".data ++ num ++ suf
        ∧ SegStr owner ∧ SegStr repo ∧ num ≠ [] ∧ (∀ c ∈ num, c.isDigit = true)
        ∧ (⟨.github, "a", "b", "9"⟩ : MRRef).owner = String.mk owner
        ∧ (⟨.github, "a", "b", "9"⟩ : MRRef).repo = String.mk repo
        ∧ (⟨.github, "a", "b", "9"⟩ : MRRef).mrNumber = String.mk num)
    ∧ (∃ pre owner repo num suf,
        "gitlab.com/a/b/-/merge_requests/7".data = pre ++ "gitlab.com/".data
          ++ owner ++ '/' :: repo ++ "/-/merge_requests/".data ++ num ++ suf
        ∧ SegStr owner ∧ SegStr repo ∧ num ≠ [] ∧ (∀ c ∈ num, c.isDigit = true)
        ∧ (⟨.gitlab, "a", "b", "7"⟩ : MRRef).owner = String.mk owner
        ∧ (⟨.gitlab, "a", "b", "7"⟩ : MRRef).repo = String.mk repo
        ∧ (⟨.gitlab, "a", "b", "7"⟩ : MRRef).mrNumber = String.mk num)
    ∧ parseMRUrl "https://github.com/acme/widgets/pull/42"
      = some ⟨.github, "acme", "widgets", "42"⟩
    ∧ parseMRUrl "https://gitlab.com/acme/widgets/-/merge_requests/7"
      = some ⟨.gitlab, "acme", "widgets", "7"⟩
    ∧ parseMRUrl "https://github.com/a/b/pull/42/files"
      = some ⟨.github, "a", "b", "42"⟩
    ∧ parseMRUrl "https://bitbucket.org/x/y/pull/1" = none :=
  ⟨(c1_url_resolution "https://bitbucket.org/x/y/pull/1").1.mp (by decide),
   (c1_url_resolution "github.com/a/b/pull/9").2.1
     ⟨.github, "a", "b", "9"⟩ (by decide) rfl,
   (c1_url_resolution "gitlab.com/a/b/-/merge_requests/7").2.2
     ⟨.gitlab, "a", "b", "7"⟩ (by decide) rfl,
   by decide, by decide, by decide, by decide⟩

/-! ## Claim C8: HTML escaping -/

/-- Appending distributes over a single-character replacement. -/
theorem replCh_append (c : Char) (rep : List Char) :
    ∀ a b, replCh c rep (a ++ b) = replCh c rep a ++ replCh c rep b := by
  intro a
  induction a with
  | nil => intro b; rfl
  | cons x xs ih =>
    intro b
    simp [replCh, ih, List.append_assoc]

/-- The three later passes leave the leading block of the first pass as
the single-pass table prescribes. -/
theorem esc_head (c : Char) :
    replCh '"' "&quot;".data (replCh '>' "&gt;".data (replCh '<' "&lt;".data
      (if c = '&' then "&amp;".data else [c]))) = escBlock c := by
  by_cases h1 : c = '&'
  · subst h1; decide
  · by_cases h2 : c = '<'
    · subst h2; decide
    · by_cases h3 : c = '>'
      · subst h3; decide
      · by_cases h4 : c = '"'
        · subst h4; decide
        · simp [replCh, escBlock, h1, h2, h3, h4]

/-- The four sequential global replacements of `escapeHtml` equal one
single pass over the characters. -/
theorem escapeHtml_eq_escL (s : String) : (escapeHtml s).data = escL s.data := by
  suffices h : ∀ cs : List Char,
      replCh '"' "&quot;".data (replCh '>' "&gt;".data (replCh '<' "&lt;".data
        (replCh '&' "&amp;".data cs))) = escL cs by
    exact h s.data
  intro cs
  induction cs with
  | nil => rfl
  | cons c cs' ih =>
    have hstep : replCh '&' "&amp;".data (c :: cs')
        = (if c = '&' then "&amp;".data else [c]) ++ replCh '&' "&amp;".data cs' := by
      simp [replCh]
    rw [hstep, replCh_append, replCh_append, replCh_append, ih, esc_head c]
    rfl

/-- No escaped block carries a raw angle bracket or double quote. -/
theorem escBlock_no_bad (c : Char) :
    ∀ x ∈ escBlock c, x ≠ '<' ∧ x ≠ '>' ∧ x ≠ '"' := by
  unfold escBlock
  split_ifs with h1 h2 h3 h4
  · decide
  · decide
  · decide
  · decide
  · intro x hx
    rw [List.mem_singleton] at hx
    subst hx
    exact ⟨h2, h3, h4⟩

/-- No character of the single-pass escape output is a raw angle bracket
or double quote. -/
theorem escL_no_bad : ∀ cs : List Char,
    ∀ x ∈ escL cs, x ≠ '<' ∧ x ≠ '>' ∧ x ≠ '"' := by
  intro cs
  induction cs with
  | nil => intro x hx; exact absurd hx (List.not_mem_nil x)
  | cons c cs' ih =>
    intro x hx
    rw [show escL (c :: cs') = escBlock c ++ escL cs' from rfl,
      List.mem_append] at hx
    rcases hx with hx | hx
    · exact escBlock_no_bad c x hx
    · exact ih x hx

/-- A pattern found at the front survives appending on the right. -/
theorem startsWithL_mono (pat : List Char) :
    ∀ r b, startsWithL pat r = true → startsWithL pat (r ++ b) = true := by
  induction pat with
  | nil => intro r b _; rfl
  | cons p ps ih =>
    intro r b h
    cases r with
    | nil => exact Bool.noConfusion h
    | cons c cs =>
      unfold startsWithL at h
      rw [Bool.and_eq_true] at h
      show (decide (p = c) && startsWithL ps (cs ++ b)) = true
      rw [Bool.and_eq_true]
      exact ⟨h.1, ih cs b h.2⟩

/-- A pattern starts at the front of itself plus anything. -/
theorem startsWithL_self (pat : List Char) :
    ∀ b, startsWithL pat (pat ++ b) = true := by
  induction pat with
  | nil => intro b; rfl
  | cons p ps ih =>
    intro b
    show (decide (p = p) && startsWithL ps (ps ++ b)) = true
    rw [Bool.and_eq_true]
    exact ⟨by simp, ih b⟩

/-- Unfolding of the entity test on a cons cell. -/
theorem entityOkL_cons (c : Char) (rest : List Char) :
    entityOkL (c :: rest)
      = ((if c = '&' then
          startsWithL "amp;".data rest || startsWithL "lt;".data rest
            || startsWithL "gt;".data rest || startsWithL "quot;".data rest
        else true) && entityOkL rest) := rfl

/-- Entity well-formedness is preserved by concatenation. -/
theorem entityOkL_append : ∀ a b : List Char,
    entityOkL a = true → entityOkL b = true → entityOkL (a ++ b) = true := by
  intro a
  induction a with
  | nil => intro b _ hb; exact hb
  | cons c cs ih =>
    intro b ha hb
    rw [entityOkL_cons, Bool.and_eq_true] at ha
    rw [List.cons_append, entityOkL_cons, Bool.and_eq_true]
    refine ⟨?_, ih b ha.2 hb⟩
    rcases ha with ⟨ha1, _⟩
    by_cases hc : c = '&'
    · rw [if_pos hc] at ha1 ⊢
      rw [Bool.or_eq_true, Bool.or_eq_true, Bool.or_eq_true] at ha1 ⊢
      rcases ha1 with ((h | h) | h) | h
      · exact Or.inl (Or.inl (Or.inl (startsWithL_mono _ _ _ h)))
      · exact Or.inl (Or.inl (Or.inr (startsWithL_mono _ _ _ h)))
      · exact Or.inl (Or.inr (startsWithL_mono _ _ _ h))
      · exact Or.inr (startsWithL_mono _ _ _ h)
    · rw [if_neg hc]

/-- Each escaped block is entity-well-formed on its own. -/
theorem entityOkL_block (c : Char) : entityOkL (escBlock c) = true := by
  unfold escBlock
  split_ifs with h1 h2 h3 h4
  · decide
  · decide
  · decide
  · decide
  · rw [entityOkL_cons, Bool.and_eq_true]
    exact ⟨by rw [if_neg h1], rfl⟩

/-- The single-pass escape output is entity-well-formed. -/
theorem entityOkL_escL : ∀ cs : List Char, entityOkL (escL cs) = true := by
  intro cs
  induction cs with
  | nil => rfl
  | cons c cs' ih =>
    rw [show escL (c :: cs') = escBlock c ++ escL cs' from rfl]
    exact entityOkL_append _ _ (entityOkL_block c) ih

/-- Unfolding of the tag test on a cons cell. -/
theorem tagsOkL_cons (c : Char) (rest : List Char) :
    tagsOkL (c :: rest)
      = ((if c = '<' then
          startsWithL "b>".data rest || startsWithL "/b>".data rest
            || startsWithL "i>".data rest || startsWithL "/i>".data rest
            || startsWithL "code>".data rest || startsWithL "/code>".data rest
            || startsWithL "a href=\"".data rest || startsWithL "/a>".data rest
        else true) && tagsOkL rest) := rfl

/-- Tag well-formedness is preserved by concatenation. -/
theorem tagsOkL_append : ∀ a b : List Char,
    tagsOkL a = true → tagsOkL b = true → tagsOkL (a ++ b) = true := by
  intro a
  induction a with
  | nil => intro b _ hb; exact hb
  | cons c cs ih =>
    intro b ha hb
    rw [tagsOkL_cons, Bool.and_eq_true] at ha
    rw [List.cons_append, tagsOkL_cons, Bool.and_eq_true]
    refine ⟨?_, ih b ha.2 hb⟩
    rcases ha with ⟨ha1, _⟩
    by_cases hc : c = '<'
    · rw [if_pos hc] at ha1 ⊢
      rw [Bool.or_eq_true, Bool.or_eq_true, Bool.or_eq_true, Bool.or_eq_true,
        Bool.or_eq_true, Bool.or_eq_true, Bool.or_eq_true] at ha1 ⊢
      rcases ha1 with ((((((h | h) | h) | h) | h) | h) | h) | h
      · exact Or.inl (Or.inl (Or.inl (Or.inl (Or.inl (Or.inl (Or.inl
          (startsWithL_mono _ _ _ h)))))))
      · exact Or.inl (Or.inl (Or.inl (Or.inl (Or.inl (Or.inl (Or.inr
          (startsWithL_mono _ _ _ h)))))))
      · exact Or.inl (Or.inl (Or.inl (Or.inl (Or.inl (Or.inr
          (startsWithL_mono _ _ _ h))))))
      · exact Or.inl (Or.inl (Or.inl (Or.inl (Or.inr
          (startsWithL_mono _ _ _ h)))))
      · exact Or.inl (Or.inl (Or.inl (Or.inr (startsWithL_mono _ _ _ h))))
      · exact Or.inl (Or.inl (Or.inr (startsWithL_mono _ _ _ h)))
      · exact Or.inl (Or.inr (startsWithL_mono _ _ _ h))
      · exact Or.inr (startsWithL_mono _ _ _ h)
    · rw [if_neg hc]

/-- A list without raw `<` is trivially tag-well-formed. -/
theorem tagsOkL_of_no_lt : ∀ cs : List Char,
    (∀ x ∈ cs, x ≠ '<') → tagsOkL cs = true := by
  intro cs
  induction cs with
  | nil => intro _; rfl
  | cons c cs' ih =>
    intro h
    rw [tagsOkL_cons, Bool.and_eq_true]
    refine ⟨?_, ih (fun x hx => h x (List.mem_cons_of_mem _ hx))⟩
    rw [if_neg (h c (List.mem_cons_self _ _))]

/-- The escape output is tag-well-formed (it has no raw `<` at all). -/
theorem tagsOkL_escL (cs : List Char) : tagsOkL (escL cs) = true :=
  tagsOkL_of_no_lt _ (fun x hx => (escL_no_bad cs x hx).1)

/-- Decimal digits of a natural number are digit characters. -/
theorem natDigitsAux_digits : ∀ (fuel n : Nat),
    ∀ c ∈ natDigitsAux fuel n, c.isDigit = true := by
  intro fuel
  induction fuel with
  | zero => intro n c hc; exact absurd hc (List.not_mem_nil c)
  | succ fuel ih =>
    intro n c hc
    unfold natDigitsAux at hc
    split at hc
    · next h =>
      rw [List.mem_singleton] at hc
      subst hc
      have h10 : n < 10 := h
      interval_cases n <;> decide
    · rw [List.mem_append] at hc
      rcases hc with hc | hc
      · exact ih (n / 10) c hc
      · rw [List.mem_singleton] at hc
        subst hc
        have h10 : n % 10 < 10 := Nat.mod_lt n (by omega)
        set m := n % 10 with hm
        interval_cases m <;> decide

/-- Rendered numbers are tag-well-formed. -/
theorem tagsOkL_natStr (n : Nat) : tagsOkL (natStr n).data = true := by
  refine tagsOkL_of_no_lt _ (fun x hx hlt => ?_)
  have := natDigitsAux_digits (n + 1) n x hx
  rw [hlt] at this
  exact absurd this (by decide)

/-- Status emojis are tag-well-formed for every status string. -/
theorem tagsOkL_statusEmoji (status : String) :
    tagsOkL (getStatusEmoji status).data = true := by
  unfold getStatusEmoji
  split_ifs <;> decide

/-- Severity emojis are tag-well-formed for every severity string. -/
theorem tagsOkL_severityEmoji (severity : String) :
    tagsOkL (getSeverityEmoji severity).data = true := by
  unfold getSeverityEmoji
  split_ifs <;> decide

/-- Data of an appended string. -/
theorem sdata (a b : String) : (a ++ b).data = a.data ++ b.data := rfl

/-- One rendered issue block is tag-well-formed. -/
theorem tagsOkL_issueBlock (index : Nat) (issue : ReviewIssue) :
    tagsOkL (issueBlock index issue).data = true := by
  unfold issueBlock
  simp only [sdata]
  repeat' apply tagsOkL_append
  all_goals
    first
    | exact tagsOkL_natStr _
    | exact tagsOkL_severityEmoji _
    | (rw [escapeHtml_eq_escL]; exact tagsOkL_escL _)
    | decide

/-- The rendered issue list is tag-well-formed. -/
theorem tagsOkL_issueBlocks : ∀ (l : List ReviewIssue) (index : Nat),
    tagsOkL (issueBlocks index l).data = true := by
  intro l
  induction l with
  | nil => intro _; rfl
  | cons i rest ih =>
    intro index
    rw [show issueBlocks index (i :: rest)
      = issueBlock index i ++ issueBlocks (index + 1) rest from rfl, sdata]
    exact tagsOkL_append _ _ (tagsOkL_issueBlock index i) (ih (index + 1))

set_option maxHeartbeats 2000000 in
/-- For a declared status value the whole built message is
tag-well-formed. -/
theorem c8_tags_aux (d : TelegramNotificationRequest)
    (hst : d.status = "passed" ∨ d.status = "warnings" ∨ d.status = "failed") :
    tagsOkL (buildTelegramMessage d).data = true := by
  have hcap : tagsOkL (capFirst d.status).data = true := by
    rcases hst with h | h | h <;> rw [h] <;> decide
  unfold buildTelegramMessage
  dsimp only
  split_ifs with h1 h2 <;>
    · simp only [sdata]
      repeat' apply tagsOkL_append
      all_goals
        first
        | exact hcap
        | exact tagsOkL_statusEmoji _
        | exact tagsOkL_natStr _
        | exact tagsOkL_issueBlocks _ _
        | (rw [escapeHtml_eq_escL]; exact tagsOkL_escL _)
        | decide

/-- C8: `escapeHtml` yields no raw `<`, `>` or `"`, every `&` of its
output begins one of the four entities, and, for any payload whose
status is one of the three declared values, every `<` of the built
Telegram message begins one of the template's own tags — the consequence
of escaping every user-supplied text field (title, author, review time,
issue file, issue message, summary, URL) before embedding it. -/
theorem c8_escaping :
    (∀ s : String,
      (∀ x ∈ (escapeHtml s).data, x ≠ '<' ∧ x ≠ '>' ∧ x ≠ '"')
      ∧ entityOkL (escapeHtml s).data = true)
    ∧ (∀ d : TelegramNotificationRequest,
        d.status = "passed" ∨ d.status = "warnings" ∨ d.status = "failed" →
        tagsOkL (buildTelegramMessage d).data = true) := by
  constructor
  · intro s
    rw [escapeHtml_eq_escL]
    exact ⟨escL_no_bad s.data, entityOkL_escL s.data⟩
  · exact c8_tags_aux

/-- C8 witness: the escaping properties evaluated on a markup-bearing
string and the tag property on a concrete payload. -/
theorem c8_escaping_witness :
    ((∀ x ∈ (escapeHtml "<b>&\"x\"</b>").data, x ≠ '<' ∧ x ≠ '>' ∧ x ≠ '"')
      ∧ entityOkL (escapeHtml "<b>&\"x\"</b>").data = true)
    ∧ tagsOkL (buildTelegramMessage
        ⟨"T<i>", "https://x/\"", "a&b", 1, 2, 3, "4s", "passed",
          [⟨"1", "f<", 3, "error", "bad <script>", "r", none⟩], "sum<>"⟩).data
      = true :=
  ⟨c8_escaping.1 "<b>&\"x\"</b>",
   c8_escaping.2
     ⟨"T<i>", "https://x/\"", "a&b", 1, 2, 3, "4s", "passed",
       [⟨"1", "f<", 3, "error", "bad <script>", "r", none⟩], "sum<>"⟩
     (Or.inl rfl)⟩

/-! ## Claims C6 and C9: Telegram message shape -/

/-- A string is a prefix of itself followed by anything. -/
theorem spfx (a b : String) : a.data <+: (a ++ b).data := ⟨b.data, rfl⟩

/-- Prefixes survive appending on the right. -/
theorem pfx_step (a x y : String) (h : a.data <+: x.data) :
    a.data <+: (x ++ y).data := h.trans (spfx x y)

/-- Infixes of the left part are infixes of an append. -/
theorem sinf_left (x : List Char) (y z : String) (h : x <:+: y.data) :
    x <:+: (y ++ z).data := h.trans ⟨[], z.data, rfl⟩

/-- Infixes of the right part are infixes of an append. -/
theorem sinf_right (x : List Char) (y z : String) (h : x <:+: z.data) :
    x <:+: (y ++ z).data := h.trans ⟨y.data, [], by simp [sdata]⟩

/-- With a nonempty issue list, the rendering of the first five issues
occurs inside the built message. -/
theorem ib_inside (d : TelegramNotificationRequest) (hne : d.issues ≠ []) :
    (issueBlocks 0 (d.issues.take 5)).data <:+: (buildTelegramMessage d).data := by
  have h1 : d.issues.length > 0 := List.length_pos.mpr hne
  unfold buildTelegramMessage
  dsimp only
  rw [if_pos h1]
  by_cases h2 : d.issues.length > 5
  · rw [if_pos h2]
    apply sinf_left
    apply sinf_left
    apply sinf_left
    apply sinf_left
    apply sinf_left
    apply sinf_left
    apply sinf_left
    exact sinf_right _ _ _ (List.infix_refl _)
  · rw [if_neg h2]
    apply sinf_left
    apply sinf_left
    apply sinf_left
    apply sinf_left
    apply sinf_left
    apply sinf_left
    exact sinf_right _ _ _ (List.infix_refl _)

/-- The truncated-message line occurs inside its issue block. -/
theorem issueBlock_chunk_inside (index : Nat) (i : ReviewIssue) :
    ("   " ++ escapeHtml (shortMessageOf i.message) ++ "\n").data
      <:+: (issueBlock index i).data := by
  unfold issueBlock
  exact sinf_right _ _ _ (List.infix_refl _)

/-- The truncated-message line of any listed issue occurs inside the
rendered issue list. -/
theorem issueBlocks_mem_inside (i : ReviewIssue) : ∀ (l : List ReviewIssue)
    (index : Nat), i ∈ l →
    ("   " ++ escapeHtml (shortMessageOf i.message) ++ "\n").data
      <:+: (issueBlocks index l).data := by
  intro l
  induction l with
  | nil => intro index h; exact absurd h (List.not_mem_nil _)
  | cons j rest ih =>
    intro index h
    rw [show issueBlocks index (j :: rest)
      = issueBlock index j ++ issueBlocks (index + 1) rest from rfl]
    rcases List.mem_cons.mp h with h | h
    · subst h
      exact sinf_left _ _ _ (issueBlock_chunk_inside index i)
    · exact sinf_right _ _ _ (ih (index + 1) h)

/-- C6: the built message starts with the status emoji chosen from the
status field; when issues exist, the rendering of exactly the first five
issues occurs in the message; when more than five issues exist, the
message carries the count of the remaining issues; and when at most five
exist, the rendered list covers all of them. -/
theorem c6_message_shape (d : TelegramNotificationRequest) :
    (getStatusEmoji d.status).data <+: (buildTelegramMessage d).data
    ∧ (d.issues ≠ [] →
        (issueBlocks 0 (d.issues.take 5)).data <:+: (buildTelegramMessage d).data)
    ∧ (5 < d.issues.length →
        ("\n<i>... and " ++ natStr (d.issues.length - 5)
          ++ " more issues</i>\n").data <:+: (buildTelegramMessage d).data)
    ∧ (d.issues.length ≤ 5 → d.issues.take 5 = d.issues) := by
  refine ⟨?_, ib_inside d, ?_, fun h => List.take_of_length_le h⟩
  · unfold buildTelegramMessage
    dsimp only
    split_ifs <;> (repeat' apply pfx_step) <;> exact List.prefix_refl _
  · intro h5
    have h1 : d.issues.length > 0 := by omega
    unfold buildTelegramMessage
    dsimp only
    rw [if_pos h1, if_pos h5]
    apply sinf_left
    apply sinf_left
    apply sinf_left
    apply sinf_left
    apply sinf_left
    apply sinf_left
    exact sinf_right _ _ _ (List.infix_refl _)

/-- C6 witness: the message-shape theorem evaluated on a seven-issue
payload (emoji prefix, first-five rendering, remaining count of 2) and a
one-issue payload (no truncation). -/
theorem c6_message_shape_witness :
    (getStatusEmoji "passed").data
      <+: (buildTelegramMessage ⟨"", "", "", 0, 0, 0, "", "passed",
            List.replicate 7 ⟨"", "", 0, "", "", "", none⟩, ""⟩).data
    ∧ (issueBlocks 0
          ((List.replicate 7 (⟨"", "", 0, "", "", "", none⟩ : ReviewIssue)).take 5)).data
      <:+: (buildTelegramMessage ⟨"", "", "", 0, 0, 0, "", "passed",
            List.replicate 7 ⟨"", "", 0, "", "", "", none⟩, ""⟩).data
    ∧ ("\n<i>... and " ++ natStr 2 ++ " more issues</i>\n").data
      <:+: (buildTelegramMessage ⟨"", "", "", 0, 0, 0, "", "passed",
            List.replicate 7 ⟨"", "", 0, "", "", "", none⟩, ""⟩).data
    ∧ (List.replicate 1 (⟨"", "", 0, "", "", "", none⟩ : ReviewIssue)).take 5
      = List.replicate 1 ⟨"", "", 0, "", "", "", none⟩ :=
  ⟨(c6_message_shape ⟨"", "", "", 0, 0, 0, "", "passed",
      List.replicate 7 ⟨"", "", 0, "", "", "", none⟩, ""⟩).1,
   (c6_message_shape ⟨"", "", "", 0, 0, 0, "", "passed",
      List.replicate 7 ⟨"", "", 0, "", "", "", none⟩, ""⟩).2.1 (by decide),
   (c6_message_shape ⟨"", "", "", 0, 0, 0, "", "passed",
      List.replicate 7 ⟨"", "", 0, "", "", "", none⟩, ""⟩).2.2.1 (by decide),
   (c6_message_shape ⟨"", "", "", 0, 0, 0, "", "passed",
      List.replicate 1 ⟨"", "", 0, "", "", "", none⟩, ""⟩).2.2.2 (by decide)⟩

/-- C9: issue messages longer than 80 characters render as their first 80
characters plus an ellipsis; messages of at most 80 characters render in
full; and for every issue among the first five, its (escaped) truncated
message line occurs in the built message. -/
theorem c9_truncation :
    (∀ m : String, 80 < m.length →
      shortMessageOf m = String.mk (m.data.take 80) ++ "...")
    ∧ (∀ m : String, m.length ≤ 80 → shortMessageOf m = m)
    ∧ (∀ (d : TelegramNotificationRequest) (i : ReviewIssue),
        i ∈ d.issues.take 5 →
        ("   " ++ escapeHtml (shortMessageOf i.message) ++ "\n").data
          <:+: (buildTelegramMessage d).data) := by
  refine ⟨?_, ?_, ?_⟩
  · intro m h
    unfold shortMessageOf
    rw [if_pos h]
  · intro m h
    unfold shortMessageOf
    rw [if_neg (by omega)]
  · intro d i hmem
    have hne : d.issues ≠ [] := by
      intro h0
      rw [h0] at hmem
      exact absurd hmem (by simp)
    exact (issueBlocks_mem_inside i _ 0 hmem).trans (ib_inside d hne)

/-- C9 witness: truncation evaluated on an 81-character message, a short
message, and a rendered one-issue payload. -/
theorem c9_truncation_witness :
    shortMessageOf "aaaaaaaaaaaaaaaaaaaaaaaaaaaaaaaaaaaaaaaaaaaaaaaaaaaaaaaaaaaaaaaaaaaaaaaaaaaaaaaaa"
      = String.mk ("aaaaaaaaaaaaaaaaaaaaaaaaaaaaaaaaaaaaaaaaaaaaaaaaaaaaaaaaaaaaaaaaaaaaaaaaaaaaaaaaa".data.take 80)
        ++ "..."
    ∧ shortMessageOf "hi" = "hi"
    ∧ ("   " ++ escapeHtml (shortMessageOf "boom") ++ "\n").data
        <:+: (buildTelegramMessage ⟨"", "", "", 0, 0, 0, "", "passed",
              [⟨"", "", 0, "", "boom", "", none⟩], ""⟩).data :=
  ⟨c9_truncation.1
      "aaaaaaaaaaaaaaaaaaaaaaaaaaaaaaaaaaaaaaaaaaaaaaaaaaaaaaaaaaaaaaaaaaaaaaaaaaaaaaaaa"
      (by decide),
   c9_truncation.2.1 "hi" (by decide),
   c9_truncation.2.2 ⟨"", "", "", 0, 0, 0, "", "passed",
      [⟨"", "", 0, "", "boom", "", none⟩], ""⟩
     ⟨"", "", 0, "", "boom", "", none⟩ (by decide)⟩
